import Mathlib

/-!
Verification of the minituna hyperparameter-study engine (`minituna_pruning.py`)
against its natural-language specification.

Python floats are modelled as `PFloat` (NaN or an exact rational), Python ints as
`ℤ`/`ℕ`, Python dicts as insertion-ordered association lists, and Python
exceptions as `Option`/`Except` results (`none`/`.error` = the call raises).
-/

set_option maxRecDepth 4000

/-- Model of a Python float: NaN or an exact rational value. -/
inductive PFloat where
  | nan : PFloat
  | val : ℚ → PFloat
deriving DecidableEq, Repr, Inhabited

/-- Python `<` on floats: any comparison involving NaN is false. -/
def PFloat.lt : PFloat → PFloat → Bool
  | .val a, .val b => a < b
  | _, _ => false

/-- Python `>` on floats: any comparison involving NaN is false. -/
def PFloat.gt : PFloat → PFloat → Bool
  | .val a, .val b => b < a
  | _, _ => false

/-- Python `int(q)` on a float value: truncation toward zero. -/
def ratTrunc (q : ℚ) : ℤ :=
  if 0 ≤ q then q.floor else q.ceil

/-- Python list index normalization: negative indices count from the end. -/
def pyIndex (n k : ℤ) : ℤ := if k < 0 then k + n else k

/-- Python list indexing `xs[k]` for `k : ℤ`: negative indices count from the end;
an index outside `[-len, len)` raises IndexError (modelled as `.error`). -/
def pyListGet {α : Type} (xs : List α) (k : ℤ) : Except String α :=
  if 0 ≤ pyIndex xs.length k then
    match xs.get? (pyIndex xs.length k).toNat with
    | some a => .ok a
    | Option.none => .error "IndexError: list index out of range"
  else
    .error "IndexError: list index out of range"

/-- `CategoricalChoiceType = Union[None, bool, int, float, str]`. -/
inductive CategoricalChoice where
  | none : CategoricalChoice
  | bool (b : Bool)
  | int (n : ℤ)
  | float (x : PFloat)
  | str (s : String)
deriving DecidableEq, Repr

/-- `FloatDistribution.__init__(low, high, log)`. -/
structure FloatDistribution where
  low : PFloat
  high : PFloat
  log : Bool
deriving DecidableEq, Repr

/-- `FloatDistribution.to_internal_repr`: returns the external value unchanged. -/
def FloatDistribution.to_internal_repr (_ : FloatDistribution) (external_repr : PFloat) :
    PFloat :=
  external_repr

/-- `FloatDistribution.to_external_repr`: returns the internal value unchanged. -/
def FloatDistribution.to_external_repr (_ : FloatDistribution) (internal_repr : PFloat) :
    PFloat :=
  internal_repr

/-- `IntDistribution.__init__(low, high)`. -/
structure IntDistribution where
  low : ℤ
  high : ℤ
deriving DecidableEq, Repr

/-- Round-half-to-even at `s` dropped low bits: divide by `2 ^ s` rounding ties to
the even quotient, then scale back up. -/
def roundHalfEven (m s : ℕ) : ℕ :=
  if 2 ^ (s - 1) < m % 2 ^ s ∨ (m % 2 ^ s = 2 ^ (s - 1) ∧ (m / 2 ^ s) % 2 = 1) then
    (m / 2 ^ s + 1) * 2 ^ s
  else
    (m / 2 ^ s) * 2 ^ s

/-- Round a natural to at most 53 significant bits (the significand width of an
IEEE-754 double), round-half-to-even; `Nat.log 2 m + 1` is the bit length of `m`. -/
def roundSig53 (m : ℕ) : ℕ :=
  if Nat.log 2 m + 1 ≤ 53 then m else roundHalfEven m (Nat.log 2 m + 1 - 53)

/-- CPython `float(n)` on an int: the nearest double (round-half-to-even at 53
significant bits), raising OverflowError when the rounded magnitude reaches
`2 ^ 1024`. -/
def pyFloatOfInt (n : ℤ) : Except String PFloat :=
  if 2 ^ 1024 ≤ roundSig53 n.natAbs then
    .error "OverflowError: int too large to convert to float"
  else
    .ok (.val (if n < 0 then -(roundSig53 n.natAbs : ℚ) else (roundSig53 n.natAbs : ℚ)))

/-- `IntDistribution.to_internal_repr`: `float(external_repr)`, which rounds to the
nearest representable double and overflows beyond the double range. -/
def IntDistribution.to_internal_repr (_ : IntDistribution) (external_repr : ℤ) :
    Except String PFloat :=
  pyFloatOfInt external_repr

/-- `IntDistribution.to_external_repr`: `int(internal_repr)`; `int(nan)` raises. -/
def IntDistribution.to_external_repr (_ : IntDistribution) (internal_repr : PFloat) :
    Except String ℤ :=
  match internal_repr with
  | .nan => .error "ValueError: cannot convert float NaN to integer"
  | .val q => .ok (ratTrunc q)

/-- Numeric value of a choice under Python comparison: bools count as `0`/`1`,
NaN and the non-numeric kinds have none. -/
def CategoricalChoice.numQ : CategoricalChoice → Option ℚ
  | .bool b => some (if b then 1 else 0)
  | .int n => some (n : ℚ)
  | .float (.val q) => some q
  | _ => Option.none

/-- Python `==` on `CategoricalChoiceType` values: `None` equals only `None`,
strings compare as strings, and bools, ints and floats compare by numeric value
(`1 == True`, `1 == 1.0`), with NaN unequal to everything including itself. -/
def pyEq (a b : CategoricalChoice) : Bool :=
  match a, b with
  | .none, .none => true
  | .str s, .str t => s == t
  | x, y =>
    match x.numQ, y.numQ with
    | some p, some q => p == q
    | _, _ => false

/-- `list.index(c)`: the first index whose element is the same value as, or
`==`-equal to, `c` (CPython compares with an identity shortcut followed by `==`;
object identity is modelled as structural equality); absent = ValueError. -/
def listIndex (xs : List CategoricalChoice) (c : CategoricalChoice) : Option ℕ :=
  match xs with
  | [] => Option.none
  | x :: rest => if x = c ∨ pyEq x c then some 0 else (listIndex rest c).map (· + 1)

/-- `CategoricalDistribution.__init__(choices)`. -/
structure CategoricalDistribution where
  choices : List CategoricalChoice
deriving DecidableEq, Repr

/-- `CategoricalDistribution.to_internal_repr`: `self.choices.index(external_repr)`,
raising ValueError when no choice compares equal to the value. -/
def CategoricalDistribution.to_internal_repr (d : CategoricalDistribution)
    (external_repr : CategoricalChoice) : Except String PFloat :=
  match listIndex d.choices external_repr with
  | some i => .ok (.val (i : ℚ))
  | Option.none => .error "ValueError: not in list"

/-- `CategoricalDistribution.to_external_repr`: `self.choices[int(internal_repr)]`,
with Python list-indexing semantics. -/
def CategoricalDistribution.to_external_repr (d : CategoricalDistribution)
    (internal_repr : PFloat) : Except String CategoricalChoice :=
  match internal_repr with
  | .nan => .error "ValueError: cannot convert float NaN to integer"
  | .val q => pyListGet d.choices (ratTrunc q)

/-! ### Lemmas about the distribution primitives -/

theorem ratTrunc_intCast (k : ℤ) : ratTrunc (k : ℚ) = k := by
  unfold ratTrunc Rat.floor Rat.ceil
  simp [Rat.den_intCast, Rat.num_intCast]

theorem ratTrunc_natCast (n : ℕ) : ratTrunc (n : ℚ) = n := by
  have : ((n : ℤ) : ℚ) = (n : ℚ) := by push_cast; ring
  rw [← this, ratTrunc_intCast]

/-- A successful `list.index` returns the first matching position: the element
there matches the sought value and no earlier element does. -/
theorem listIndex_spec (xs : List CategoricalChoice) (c : CategoricalChoice) (i : ℕ)
    (h : listIndex xs c = some i) :
    ∃ x, xs.get? i = some x ∧ (x = c ∨ pyEq x c = true) ∧
      ∀ j y, j < i → xs.get? j = some y → ¬(y = c ∨ pyEq y c = true) := by
  induction xs generalizing i with
  | nil => simp [listIndex] at h
  | cons x rest ih =>
    by_cases hx : x = c ∨ pyEq x c = true
    · simp only [listIndex, if_pos hx, Option.some.injEq] at h
      subst h
      exact ⟨x, rfl, hx, fun j y hj _ => absurd hj (Nat.not_lt_zero j)⟩
    · simp only [listIndex, if_neg hx] at h
      rcases Option.map_eq_some'.mp h with ⟨j, hj, rfl⟩
      obtain ⟨y, hy, hmatch, hfirst⟩ := ih j hj
      refine ⟨y, hy, hmatch, ?_⟩
      intro k z hk hz
      cases k with
      | zero =>
        have hz' : x = z := by
          have : some x = some z := hz
          exact Option.some.inj this
        subst hz'
        exact hx
      | succ k' =>
        exact hfirst k' z (by omega) hz

theorem listIndex_isSome_of_mem (xs : List CategoricalChoice) (c : CategoricalChoice)
    (h : c ∈ xs) : (listIndex xs c).isSome := by
  induction xs with
  | nil => simp at h
  | cons x rest ih =>
    by_cases hx : x = c ∨ pyEq x c = true
    · simp [listIndex, hx]
    · rcases List.mem_cons.mp h with h' | h'
      · exact absurd (Or.inl h'.symm) hx
      · simp only [listIndex, if_neg hx]
        rcases Option.isSome_iff_exists.mp (ih h') with ⟨j, hj⟩
        simp [hj]

theorem pyIndex_natCast (n : ℤ) (i : ℕ) : pyIndex n (i : ℤ) = (i : ℤ) := by
  unfold pyIndex
  rw [if_neg (by omega)]

theorem pyListGet_natCast {α : Type} (xs : List α) (i : ℕ) (hlt : i < xs.length) :
    pyListGet xs (i : ℤ) = .ok (xs.get ⟨i, hlt⟩) := by
  unfold pyListGet
  rw [pyIndex_natCast, if_pos (by omega : (0 : ℤ) ≤ (i : ℤ))]
  have ht : ((i : ℤ)).toNat = i := by omega
  rw [ht, List.get?_eq_get hlt]

/-- `float()` is exact on every integer of magnitude at most `2 ^ 53`. -/
theorem roundSig53_eq_self (m : ℕ) (hm : m ≤ 2 ^ 53) : roundSig53 m = m := by
  rcases Nat.lt_or_ge m (2 ^ 53) with hlt | hge
  · have hlog : Nat.log 2 m + 1 ≤ 53 := by
      rcases Nat.eq_zero_or_pos m with rfl | hpos
      · simp [Nat.log_zero_right]
      · have h1 : 2 ^ Nat.log 2 m ≤ m := Nat.pow_log_le_self 2 (by omega)
        have h2 : 2 ^ Nat.log 2 m < 2 ^ 53 := lt_of_le_of_lt h1 hlt
        have h3 : Nat.log 2 m < 53 := (Nat.pow_lt_pow_iff_right (by norm_num)).mp h2
        omega
    unfold roundSig53
    rw [if_pos hlog]
  · have hm53 : m = 2 ^ 53 := le_antisymm hm hge
    subst hm53
    have hlog : Nat.log 2 (2 ^ 53) = 53 := Nat.log_pow (by norm_num) 53
    unfold roundSig53
    rw [hlog]
    decide

/-- Claim C7 counterexample: the round trip is not the identity on the declared
domains. `float()` rounds integers beyond `2 ^ 53` to the nearest double, so for
the Int distribution over `[0, 2 ^ 54]` the in-domain value `2 ^ 53 + 1` comes back
as `2 ^ 53`; and `list.index` compares with Python `==`, under which `1 == True`,
so the member choice `True` of `[1, True]` comes back as the distinct choice `1`. -/
theorem c7_counterexample :
    ((IntDistribution.mk 0 18014398509481984).low ≤ 9007199254740993 ∧
      (9007199254740993 : ℤ) ≤ (IntDistribution.mk 0 18014398509481984).high ∧
      (IntDistribution.mk 0 18014398509481984).to_internal_repr 9007199254740993 =
        .ok (.val 9007199254740992) ∧
      (IntDistribution.mk 0 18014398509481984).to_external_repr (.val 9007199254740992) =
        .ok 9007199254740992 ∧
      (9007199254740992 : ℤ) ≠ 9007199254740993) ∧
    (CategoricalChoice.bool true ∈ (CategoricalDistribution.mk [.int 1, .bool true]).choices ∧
      (CategoricalDistribution.mk [.int 1, .bool true]).to_internal_repr (.bool true) =
        .ok (.val 0) ∧
      (CategoricalDistribution.mk [.int 1, .bool true]).to_external_repr (.val 0) =
        .ok (.int 1) ∧
      CategoricalChoice.int 1 ≠ .bool true) := by
  refine ⟨⟨by decide, by decide, ?_, ?_, by decide⟩,
    ⟨by decide, ?_, ?_, by decide⟩⟩
  · have hlog : Nat.log 2 9007199254740993 = 53 :=
      Nat.log_eq_of_pow_le_of_lt_pow (by norm_num) (by norm_num)
    have hround : roundSig53 9007199254740993 = 9007199254740992 := by
      unfold roundSig53
      rw [hlog]
      decide
    have habs : ((9007199254740993 : ℤ)).natAbs = 9007199254740993 := rfl
    unfold IntDistribution.to_internal_repr pyFloatOfInt
    rw [habs, hround]
    norm_num
  · with_unfolding_all rfl
  · with_unfolding_all rfl
  · with_unfolding_all rfl

/-- Claim C7 (amended): Float distributions round-trip every float unchanged. Int
distributions round-trip exactly every in-domain integer of magnitude at most
`2 ^ 53` (beyond that, `float()` rounds to the nearest double and the round trip
can return a different integer). Categorical distributions map a member choice to
the index of the first choice that Python considers equal to it, and the round
trip returns that choice: a value `==`-equal to the input, and the input itself
whenever no `==`-equal value other than the input occurs among the choices. -/
theorem c7_amended :
    (∀ (d : FloatDistribution) (x : PFloat),
        d.to_external_repr (d.to_internal_repr x) = x) ∧
    (∀ (d : IntDistribution) (v : ℤ), d.low ≤ v → v ≤ d.high → v.natAbs ≤ 2 ^ 53 →
        ∃ f, d.to_internal_repr v = .ok f ∧ d.to_external_repr f = .ok v) ∧
    (∀ (d : CategoricalDistribution) (c : CategoricalChoice), c ∈ d.choices →
        ∃ (i : ℕ) (r : CategoricalChoice),
          d.to_internal_repr c = .ok (.val (i : ℚ)) ∧
          d.to_external_repr (.val (i : ℚ)) = .ok r ∧
          d.choices.get? i = some r ∧ (r = c ∨ pyEq r c = true) ∧
          ((∀ y ∈ d.choices, pyEq y c = true → y = c) → r = c)) := by
  refine ⟨fun d x => rfl, fun d v _ _ habs => ?_, fun d c hc => ?_⟩
  · have hround : roundSig53 v.natAbs = v.natAbs := roundSig53_eq_self _ habs
    have hnoflow : ¬ (2 ^ 1024 ≤ roundSig53 v.natAbs) := by
      rw [hround]
      have h2 : (2 : ℕ) ^ 53 < 2 ^ 1024 := Nat.pow_lt_pow_right (by norm_num) (by norm_num)
      exact not_le.mpr (lt_of_le_of_lt habs h2)
    refine ⟨.val (if v < 0 then -(v.natAbs : ℚ) else (v.natAbs : ℚ)), ?_, ?_⟩
    · unfold IntDistribution.to_internal_repr pyFloatOfInt
      rw [if_neg hnoflow, hround]
    · by_cases hv : v < 0
      · rw [if_pos hv]
        show Except.ok (ratTrunc (-(v.natAbs : ℚ))) = .ok v
        have hcast : -(v.natAbs : ℚ) = ((-(v.natAbs : ℤ) : ℤ) : ℚ) := by
          rw [Int.cast_neg, Int.cast_natCast]
        rw [hcast, ratTrunc_intCast]
        congr 1
        omega
      · rw [if_neg hv]
        show Except.ok (ratTrunc ((v.natAbs : ℚ))) = .ok v
        have hcast : (v.natAbs : ℚ) = (((v.natAbs : ℤ)) : ℚ) := by
          rw [Int.cast_natCast]
        rw [hcast, ratTrunc_intCast]
        congr 1
        omega
  · rcases Option.isSome_iff_exists.mp (listIndex_isSome_of_mem d.choices c hc) with ⟨i, hi⟩
    obtain ⟨r, hr, hmatch, hfirst⟩ := listIndex_spec d.choices c i hi
    obtain ⟨hlt, hget⟩ := List.get?_eq_some.mp hr
    refine ⟨i, r, ?_, ?_, hr, hmatch, ?_⟩
    · simp [CategoricalDistribution.to_internal_repr, hi]
    · simp only [CategoricalDistribution.to_external_repr, ratTrunc_natCast]
      rw [pyListGet_natCast d.choices i hlt, hget]
    · intro hall
      rcases hmatch with h | h
      · exact h
      · exact hall r (hget ▸ List.get_mem d.choices i hlt) h

/-- Witness for the amended C7 at concrete inputs: the Int distribution `[1, 5]`
at `3` and the categorical distribution `["a", "b"]` at `"b"`. -/
theorem c7_amended_witness :
    (∃ f, (IntDistribution.mk 1 5).to_internal_repr 3 = .ok f ∧
      (IntDistribution.mk 1 5).to_external_repr f = .ok 3) ∧
    (∃ (i : ℕ) (r : CategoricalChoice),
      (CategoricalDistribution.mk [.str "a", .str "b"]).to_internal_repr (.str "b") =
        .ok (.val (i : ℚ)) ∧
      (CategoricalDistribution.mk [.str "a", .str "b"]).to_external_repr (.val (i : ℚ)) =
        .ok r ∧
      (CategoricalDistribution.mk [.str "a", .str "b"]).choices.get? i = some r ∧
      (r = .str "b" ∨ pyEq r (.str "b") = true) ∧
      ((∀ y ∈ (CategoricalDistribution.mk [.str "a", .str "b"]).choices,
          pyEq y (.str "b") = true → y = .str "b") → r = .str "b")) :=
  ⟨c7_amended.2.1 (IntDistribution.mk 1 5) 3 (by decide) (by decide) (by decide),
   c7_amended.2.2 (CategoricalDistribution.mk [.str "a", .str "b"]) (.str "b") (by decide)⟩

/-- Claim C8 counterexample: the internal index `-1` is negative, hence outside
`[0, n-1]`, yet `to_external_repr` returns the last choice rather than failing with
a lookup error, because Python list indexing accepts negative indices. -/
theorem c8_counterexample :
    (CategoricalDistribution.mk [.str "a", .str "b"]).to_external_repr (.val (-1)) =
      .ok (.str "b") := by
  with_unfolding_all rfl

/-- Claim C8 (amended): for every CategoricalDistribution with choices of length n
and every integer internal index k, `to_external_repr` fails with a lookup error
when `k ≥ n` or `k < -n`; for `-n ≤ k < 0` it returns the choice at position `n + k`
(Python negative indexing) rather than failing. -/
theorem c8_amended (d : CategoricalDistribution) (k : ℤ) :
    (((d.choices.length : ℤ) ≤ k ∨ k < -(d.choices.length : ℤ)) →
      d.to_external_repr (.val (k : ℚ)) = .error "IndexError: list index out of range") ∧
    (-(d.choices.length : ℤ) ≤ k → k < 0 →
      ∃ c, d.choices.get? (k + d.choices.length).toNat = some c ∧
        d.to_external_repr (.val (k : ℚ)) = .ok c) := by
  have hext : d.to_external_repr (.val (k : ℚ)) = pyListGet d.choices k := by
    simp [CategoricalDistribution.to_external_repr, ratTrunc_intCast]
  constructor
  · intro hout
    rw [hext]
    unfold pyListGet
    rcases hout with hge | hlt
    · rw [(by unfold pyIndex; rw [if_neg (by omega)] : pyIndex d.choices.length k = k),
        if_pos (by omega : (0 : ℤ) ≤ k),
        List.get?_eq_none.mpr (by omega : d.choices.length ≤ k.toNat)]
    · rw [(by unfold pyIndex; rw [if_pos (by omega)] :
          pyIndex d.choices.length k = k + d.choices.length),
        if_neg (by omega : ¬ (0 : ℤ) ≤ k + (d.choices.length : ℤ))]
  · intro h1 h2
    have hlt : (k + d.choices.length).toNat < d.choices.length := by omega
    refine ⟨d.choices.get ⟨(k + d.choices.length).toNat, hlt⟩, List.get?_eq_get hlt, ?_⟩
    rw [hext]
    unfold pyListGet
    rw [(by unfold pyIndex; rw [if_pos (by omega)] :
        pyIndex d.choices.length k = k + d.choices.length),
      if_pos (by omega : (0 : ℤ) ≤ k + (d.choices.length : ℤ)),
      List.get?_eq_get hlt]

/-- Witness for the amended C8 at a concrete input: choices `["a","b","c"]`, indices
`4` (out of range, lookup error) and `-2` (negative but in range, returns "b"). -/
theorem c8_amended_witness :
    (CategoricalDistribution.mk [.str "a", .str "b", .str "c"]).to_external_repr
        (.val ((4 : ℤ) : ℚ)) = .error "IndexError: list index out of range" ∧
    ∃ c, (CategoricalDistribution.mk [.str "a", .str "b", .str "c"]).choices.get?
          ((-2 : ℤ) + (CategoricalDistribution.mk
            [.str "a", .str "b", .str "c"]).choices.length).toNat = some c ∧
      (CategoricalDistribution.mk [.str "a", .str "b", .str "c"]).to_external_repr
        (.val ((-2 : ℤ) : ℚ)) = .ok c := by
  constructor
  · exact (c8_amended (CategoricalDistribution.mk [.str "a", .str "b", .str "c"]) 4).1
      (Or.inl (by decide))
  · exact (c8_amended (CategoricalDistribution.mk [.str "a", .str "b", .str "c"]) (-2)).2
      (by decide) (by decide)

/-! ### Trials and the in-memory Storage -/

/-- `TrialStateType = Literal["running", "completed", "pruned", "failed"]`. -/
inductive TrialStateType where
  | running
  | completed
  | pruned
  | failed
deriving DecidableEq, Repr

/-- The tagged union of the three distribution classes, as stored by `Storage`. -/
inductive BaseDistribution where
  | floatD (d : FloatDistribution)
  | intD (d : IntDistribution)
  | catD (d : CategoricalDistribution)
deriving DecidableEq, Repr

/-- Models Python `str(distribution)` as used by `JournalStorage.set_trial_param`:
the journal payload stores a string rendering of the distribution object (in CPython
"<__main__.FloatDistribution object at 0x...>"); only the class name is modelled,
what matters is that the stored value is a string, not the distribution object. -/
def distStr : BaseDistribution → String
  | .floatD _ => "<FloatDistribution object>"
  | .intD _ => "<IntDistribution object>"
  | .catD _ => "<CategoricalDistribution object>"

/-- A value of `FrozenTrial.distributions`: Storage stores the distribution object,
JournalStorage's replay stores the string from the journal payload. -/
inductive StoredDistribution where
  | obj (d : BaseDistribution)
  | str (s : String)
deriving DecidableEq, Repr

/-- Python dict assignment `d[k] = v`: replace in place if the key is present
(insertion order kept), append otherwise. -/
def dictSet {κ ν : Type} [DecidableEq κ] (d : List (κ × ν)) (k : κ) (v : ν) :
    List (κ × ν) :=
  match d with
  | [] => [(k, v)]
  | (k', v') :: rest => if k' = k then (k, v) :: rest else (k', v') :: dictSet rest k v

/-- Python dict lookup `d.get(k)` / `k in d`: first (unique) matching key. -/
def dictGet? {κ ν : Type} [DecidableEq κ] (d : List (κ × ν)) (k : κ) : Option ν :=
  match d with
  | [] => Option.none
  | (k', v') :: rest => if k' = k then some v' else dictGet? rest k

/-- `FrozenTrial.__init__` plus its accumulated fields. Dicts are modelled as
insertion-ordered association lists. -/
structure FrozenTrial where
  trial_id : ℕ
  state : TrialStateType
  value : Option PFloat := Option.none
  intermediate_values : List (ℤ × PFloat) := []
  internal_params : List (String × PFloat) := []
  distributions : List (String × StoredDistribution) := []
deriving DecidableEq, Repr

/-- `FrozenTrial.is_finished`: `self.state != "running"`. -/
def FrozenTrial.is_finished (t : FrozenTrial) : Bool :=
  t.state ≠ .running

/-- `FrozenTrial.last_step`: `max(self.intermediate_values.keys())`, or absent when
the dict is empty. -/
def FrozenTrial.last_step (t : FrozenTrial) : Option ℤ :=
  (t.intermediate_values.map Prod.fst).max?

/-- `Storage.__init__`: an empty trial list. -/
structure Storage where
  trials : List FrozenTrial := []
deriving DecidableEq, Repr

/-- `Storage.create_new_trial`: append a fresh Running trial with
`trial_id = len(self.trials)` and return its id. -/
def Storage.create_new_trial (s : Storage) : Storage × ℕ :=
  let trial_id := s.trials.length
  ({ trials := s.trials ++ [{ trial_id := trial_id, state := .running }] }, trial_id)

/-- `Storage.get_all_trials` (the deep copy is identity in this value model). -/
def Storage.get_all_trials (s : Storage) : List FrozenTrial :=
  s.trials

/-- `Storage.get_trial`: `self.trials[trial_id]`; an id past the end raises
IndexError (modelled as `Option.none`; created ids are natural numbers). -/
def Storage.get_trial (s : Storage) (trial_id : ℕ) : Option FrozenTrial :=
  s.trials.get? trial_id

/-- Python `min(completed_trials, key=lambda t: t.value)` comparison on the running
minimum: keeps the first element whose key is strictly smallest. `None`/NaN values
never compare less (in CPython a `None` value would raise; no claim exercises it). -/
def valueLt : Option PFloat → Option PFloat → Bool
  | some (.val a), some (.val b) => a < b
  | _, _ => false

/-- `min(completed_trials, key=...)` over a nonempty list: left fold keeping the
first minimal element. -/
def pyMinByValue (t : FrozenTrial) (rest : List FrozenTrial) : FrozenTrial :=
  rest.foldl (fun best x => if valueLt x.value best.value then x else best) t

/-- `Storage.get_best_trial`: filters Completed trials then takes `min`; Python's
`min` raises ValueError on an empty sequence. -/
def Storage.get_best_trial (s : Storage) : Except String FrozenTrial :=
  let completed_trials := s.trials.filter (fun t => t.state = .completed)
  match completed_trials with
  | [] => .error "ValueError: min() arg is an empty sequence"
  | t :: rest => .ok (pyMinByValue t rest)

/-- `Storage.set_trial_value`: `assert not trial.is_finished` then set the value;
`none` models the raised error (missing trial id or assertion failure). -/
def Storage.set_trial_value (s : Storage) (trial_id : ℕ) (value : PFloat) :
    Option Storage :=
  match s.trials.get? trial_id with
  | Option.none => Option.none
  | some trial =>
    if trial.is_finished then Option.none
    else some { trials := s.trials.set trial_id { trial with value := some value } }

/-- `Storage.set_trial_state`: `assert not trial.is_finished` then set the state. -/
def Storage.set_trial_state (s : Storage) (trial_id : ℕ) (state : TrialStateType) :
    Option Storage :=
  match s.trials.get? trial_id with
  | Option.none => Option.none
  | some trial =>
    if trial.is_finished then Option.none
    else some { trials := s.trials.set trial_id { trial with state := state } }

/-- `Storage.set_trial_param`: `assert not trial.is_finished` then record the
distribution object and the internal value under the parameter name. -/
def Storage.set_trial_param (s : Storage) (trial_id : ℕ) (name : String)
    (distribution : BaseDistribution) (value : PFloat) : Option Storage :=
  match s.trials.get? trial_id with
  | Option.none => Option.none
  | some trial =>
    if trial.is_finished then Option.none
    else
      let trial' := { trial with
        distributions := dictSet trial.distributions name (.obj distribution)
        internal_params := dictSet trial.internal_params name value }
      some { trials := s.trials.set trial_id trial' }

/-- `Storage.set_trial_intermediate_value`: `assert not trial.is_finished` then
record the value at the given step. -/
def Storage.set_trial_intermediate_value (s : Storage) (trial_id : ℕ) (step : ℤ)
    (value : PFloat) : Option Storage :=
  match s.trials.get? trial_id with
  | Option.none => Option.none
  | some trial =>
    if trial.is_finished then Option.none
    else
      let trial' :=
        { trial with intermediate_values := dictSet trial.intermediate_values step value }
      some { trials := s.trials.set trial_id trial' }

/-! ### JournalStorage: event-sourced storage -/

/-- One `Journal` log record: operation tag (the `Operation` enum) plus payload.
`SET_TRIAL_PARAM` carries the distribution in textual form because
`JournalStorage.set_trial_param` stores `str(distribution)` in the payload. -/
inductive Journal where
  | create_new_trial
  | set_trial_value (trial_id : ℕ) (value : PFloat)
  | set_trial_state (trial_id : ℕ) (state : TrialStateType)
  | set_trial_param (trial_id : ℕ) (name : String) (distribution : String)
      (value : PFloat)
  | set_trial_intermediate_value (trial_id : ℕ) (step : ℤ) (value : PFloat)
deriving DecidableEq, Repr

/-- `JournalStorage.__init__`. The extra `file` field models the durable append-only
store written by `_write_json_to_file` (one serialized record per processed entry). -/
structure JournalStorage where
  logs : List Journal := []
  trials : List FrozenTrial := []
  last_created_trial_id : ℤ := -1
  next_op_id : ℕ := 0
  file : List Journal := []
deriving DecidableEq, Repr

/-- One `_sync` loop body after the `_write_json_to_file` call: apply the entry to
the in-memory trial list. `none` models a raised error (the
`assert not trial.is_finished` failing, or an IndexError on `self.trials[trial_id]`).
The second component is the updated `last_created_trial_id`. -/
def applyJournal (trials : List FrozenTrial) (lc : ℤ) :
    Journal → Option (List FrozenTrial × ℤ)
  | .create_new_trial =>
    let trial_id := trials.length
    some (trials ++ [{ trial_id := trial_id, state := .running }], (trial_id : ℤ))
  | .set_trial_value trial_id value =>
    match trials.get? trial_id with
    | Option.none => Option.none
    | some trial =>
      if trial.is_finished then Option.none
      else some (trials.set trial_id { trial with value := some value }, lc)
  | .set_trial_state trial_id state =>
    match trials.get? trial_id with
    | Option.none => Option.none
    | some trial =>
      if trial.is_finished then Option.none
      else some (trials.set trial_id { trial with state := state }, lc)
  | .set_trial_param trial_id name distribution value =>
    match trials.get? trial_id with
    | Option.none => Option.none
    | some trial =>
      if trial.is_finished then Option.none
      else
        let trial' := { trial with
          distributions := dictSet trial.distributions name (.str distribution)
          internal_params := dictSet trial.internal_params name value }
        some (trials.set trial_id trial', lc)
  | .set_trial_intermediate_value trial_id step value =>
    match trials.get? trial_id with
    | Option.none => Option.none
    | some trial =>
      if trial.is_finished then Option.none
      else
        let trial' :=
          { trial with intermediate_values := dictSet trial.intermediate_values step value }
        some (trials.set trial_id trial', lc)

/-- Result of running the `_sync` loop over a list of pending entries. -/
structure SyncResult where
  trials : List FrozenTrial
  last_created_trial_id : ℤ
  written : List Journal
  ok : Bool
deriving DecidableEq, Repr

/-- The `_sync` loop over the pending entries, in log order: each entry is first
appended to the durable file (`written`), then applied; a raised error stops the
loop — entries processed so far stay applied and written, and the failing entry has
been written but not applied. -/
def replayJournal (trials : List FrozenTrial) (lc : ℤ) :
    List Journal → SyncResult
  | [] => ⟨trials, lc, [], true⟩
  | j :: rest =>
    match applyJournal trials lc j with
    | Option.none => ⟨trials, lc, [j], false⟩
    | some (trials', lc') =>
      let r := replayJournal trials' lc' rest
      ⟨r.trials, r.last_created_trial_id, j :: r.written, r.ok⟩

/-- `JournalStorage._sync`: process `self.logs[self.next_op_id:]`; on success the
cursor advances to `len(self.logs)`; on a raised error the cursor line is never
reached, so `next_op_id` keeps its old value while the partial effects remain. The
Bool is the success flag (`false` = the call raised). -/
def JournalStorage.sync (s : JournalStorage) : JournalStorage × Bool :=
  let r := replayJournal s.trials s.last_created_trial_id (s.logs.drop s.next_op_id)
  let s' := { s with
    trials := r.trials
    last_created_trial_id := r.last_created_trial_id
    file := s.file ++ r.written
    next_op_id := if r.ok then s.logs.length else s.next_op_id }
  (s', r.ok)

/-- `JournalStorage.create_new_trial`: append a CREATE_NEW_TRIAL entry, `_sync`,
return `self.last_created_trial_id` (or raise, modelled as `none`, if sync raised). -/
def JournalStorage.create_new_trial (s : JournalStorage) : JournalStorage × Option ℤ :=
  let s₁ := { s with logs := s.logs ++ [Journal.create_new_trial] }
  let p := s₁.sync
  (p.1, if p.2 then some p.1.last_created_trial_id else Option.none)

/-- `JournalStorage.set_trial_value`: only appends a log entry; nothing is checked
or applied at call time. -/
def JournalStorage.set_trial_value (s : JournalStorage) (trial_id : ℕ)
    (value : PFloat) : JournalStorage :=
  { s with logs := s.logs ++ [Journal.set_trial_value trial_id value] }

/-- `JournalStorage.set_trial_state`: only appends a log entry. -/
def JournalStorage.set_trial_state (s : JournalStorage) (trial_id : ℕ)
    (state : TrialStateType) : JournalStorage :=
  { s with logs := s.logs ++ [Journal.set_trial_state trial_id state] }

/-- `JournalStorage.set_trial_param`: only appends a log entry; the payload holds
`str(distribution)`, not the distribution object. -/
def JournalStorage.set_trial_param (s : JournalStorage) (trial_id : ℕ) (name : String)
    (distribution : BaseDistribution) (value : PFloat) : JournalStorage :=
  { s with logs :=
      s.logs ++ [Journal.set_trial_param trial_id name (distStr distribution) value] }

/-- `JournalStorage.set_trial_intermediate_value`: only appends a log entry. -/
def JournalStorage.set_trial_intermediate_value (s : JournalStorage) (trial_id : ℕ)
    (step : ℤ) (value : PFloat) : JournalStorage :=
  { s with logs := s.logs ++ [Journal.set_trial_intermediate_value trial_id step value] }

/-- `JournalStorage.get_all_trials`: `_sync` first, then return the trials (a raised
sync error propagates: the read returns nothing). -/
def JournalStorage.get_all_trials (s : JournalStorage) :
    JournalStorage × Option (List FrozenTrial) :=
  let p := s.sync
  (p.1, if p.2 then some p.1.trials else Option.none)

/-- `JournalStorage.get_trial`: `_sync` first, then `self.trials[trial_id]`. -/
def JournalStorage.get_trial (s : JournalStorage) (trial_id : ℕ) :
    JournalStorage × Option FrozenTrial :=
  let p := s.sync
  (p.1, if p.2 then p.1.trials.get? trial_id else Option.none)

/-- `JournalStorage.get_best_trial`: `_sync` first, then the same min-by-value
selection as `Storage.get_best_trial` (raising on an empty completed list). -/
def JournalStorage.get_best_trial (s : JournalStorage) :
    JournalStorage × Except String FrozenTrial :=
  let p := s.sync
  (p.1,
    if p.2 then
      match p.1.trials.filter (fun t => t.state = .completed) with
      | [] => .error "ValueError: min() arg is an empty sequence"
      | t :: rest => .ok (pyMinByValue t rest)
    else .error "sync raised")

/-! ### Pruner: median-stopping rule -/

/-- Insertion of a rational into an ascending sorted list. -/
def insertSorted (x : ℚ) : List ℚ → List ℚ
  | [] => [x]
  | y :: ys => if x ≤ y then x :: y :: ys else y :: insertSorted x ys

/-- Insertion sort, ascending (the median depends only on the multiset of values). -/
def sortRat : List ℚ → List ℚ
  | [] => []
  | x :: xs => insertSorted x (sortRat xs)

/-- Median as `np.median` computes it on a nonempty array: middle element for odd
length, average of the two middle elements for even length. -/
def ratMedian (vals : List ℚ) : ℚ :=
  let sorted := sortRat vals
  let n := sorted.length
  if n % 2 = 1 then sorted.getD (n / 2) 0
  else (sorted.getD (n / 2 - 1) 0 + sorted.getD (n / 2) 0) / 2

/-- `np.nanmedian`: NaN entries are ignored; the result is NaN when no non-NaN
entry exists (including the empty array). -/
def nanmedian (xs : List PFloat) : PFloat :=
  let vals := xs.filterMap (fun x => match x with | .nan => Option.none | .val q => some q)
  match vals with
  | [] => .nan
  | _ :: _ => .val (ratMedian vals)

/-- `Pruner.__init__(n_startup_trials=5, n_warmup_steps=0)`. -/
structure Pruner where
  n_startup_trials : ℕ := 5
  n_warmup_steps : ℤ := 0
deriving DecidableEq, Repr

/-- `Pruner.prune(study, trial)`, reading `study.storage.get_all_trials()` from an
in-memory `Storage`. The final comparison `trial.intermediate_values[last_step] >
median` cannot raise KeyError because `last_step` is a key of the dict; its lookup
is modelled with a NaN default (`gt` on NaN is false either way). -/
def Pruner.prune (p : Pruner) (storage : Storage) (trial : FrozenTrial) : Bool :=
  let all_trials := storage.get_all_trials
  let n_trials := (all_trials.filter (fun t => t.state = .completed)).length
  if n_trials < p.n_startup_trials then false
  else
    match trial.last_step with
    | Option.none => false
    | some last_step =>
      if last_step < p.n_warmup_steps then false
      else
        let others := all_trials.filterMap
          (fun t => dictGet? t.intermediate_values last_step)
        let median := nanmedian others
        ((dictGet? trial.intermediate_values last_step).getD .nan).gt median

/-- The pruning decision exactly as claim C3 states it: the same startup and warmup
gates, but the median is collected only from every trial OTHER than the given trial,
and when no other trial has a value at `last_step` the result is false by an
explicit branch. -/
def Pruner.pruneSpec (p : Pruner) (storage : Storage) (trial : FrozenTrial) : Bool :=
  let all_trials := storage.get_all_trials
  let n_trials := (all_trials.filter (fun t => t.state = .completed)).length
  if n_trials < p.n_startup_trials then false
  else
    match trial.last_step with
    | Option.none => false
    | some last_step =>
      if last_step < p.n_warmup_steps then false
      else
        let others := (all_trials.filter (fun t => t.trial_id ≠ trial.trial_id)).filterMap
          (fun t => dictGet? t.intermediate_values last_step)
        match others with
        | [] => false
        | _ :: _ =>
          ((dictGet? trial.intermediate_values last_step).getD .nan).gt (nanmedian others)

/-- Claim C3's pruning rule as the code actually implements it: identical to
`Pruner.prune` except that the collection of step values is written as a filter of
the trials with a value at `last_step` followed by reading those values, and the
trial's own value is read through an explicit match. The median ranges over ALL
stored trials — including the copy of the given trial itself. -/
def Pruner.pruneAmended (p : Pruner) (storage : Storage) (trial : FrozenTrial) : Bool :=
  let completed := storage.trials.filter (fun t => t.state = .completed)
  if completed.length < p.n_startup_trials then false
  else
    match trial.last_step with
    | Option.none => false
    | some ls =>
      if ls < p.n_warmup_steps then false
      else
        let withValue := storage.trials.filter
          (fun t => (dictGet? t.intermediate_values ls).isSome)
        let others := withValue.map (fun t => (dictGet? t.intermediate_values ls).getD .nan)
        match dictGet? trial.intermediate_values ls with
        | Option.none => false
        | some own => own.gt (nanmedian others)

/-- Storage used against claim C3: two Completed trials with values 4 and 6 at step
0, and a Running trial (the one being judged) with value 11/2 at step 0. -/
def pruneStorageEx : Storage :=
  { trials := [
      { trial_id := 0
        state := .completed
        value := some (.val 4)
        intermediate_values := [(0, .val 4)] },
      { trial_id := 1
        state := .completed
        value := some (.val 6)
        intermediate_values := [(0, .val 6)] },
      { trial_id := 2
        state := .running
        intermediate_values := [(0, .val (11/2))] }] }

/-- The trial snapshot handed to `prune` in the C3 counterexample (the copy of
trial 2 returned by `get_trial`). -/
def pruneTrialEx : FrozenTrial :=
  { trial_id := 2
    state := .running
    intermediate_values := [(0, .val (11/2))] }

/-- Claim C2 (code bug): with no Completed trial — here the fresh empty storages —
`get_best_trial` does not return absent: Python's `min` over the empty filtered list
raises ValueError, for Storage and for JournalStorage alike, contradicting the
declared `Optional[FrozenTrial]` return. -/
theorem c2_empty_best_trial_raises :
    Storage.get_best_trial {} = .error "ValueError: min() arg is an empty sequence" ∧
    (JournalStorage.get_best_trial {}).2 =
      .error "ValueError: min() arg is an empty sequence" :=
  ⟨rfl, rfl⟩

/-- Claim C3 counterexample: with `n_startup_trials = 2, n_warmup_steps = 0`, own
value 11/2 at last step 0 and other trials' values 4 and 6 there: the claim's median
over the OTHER trials is 5, and 11/2 > 5, so the claim demands pruning (true); the
code instead includes the trial's own value, computes the median of [4, 6, 11/2] =
11/2, and 11/2 > 11/2 is false. -/
theorem c3_counterexample :
    Pruner.prune { n_startup_trials := 2, n_warmup_steps := 0 }
        pruneStorageEx pruneTrialEx = false ∧
    Pruner.pruneSpec { n_startup_trials := 2, n_warmup_steps := 0 }
        pruneStorageEx pruneTrialEx = true := by
  constructor
  · with_unfolding_all rfl
  · with_unfolding_all rfl

theorem PFloat.nan_gt (x : PFloat) : PFloat.gt .nan x = false := by
  cases x <;> rfl

theorem filterMap_eq_map_filter {α β : Type} (f : α → Option β) (d : β) (l : List α) :
    l.filterMap f = (l.filter (fun a => (f a).isSome)).map (fun a => (f a).getD d) := by
  induction l with
  | nil => rfl
  | cons x xs ih =>
    cases hfx : f x <;> simp [List.filterMap_cons, hfx, ih]

/-- Claim C3 (amended): the pruner returns false whenever the count of Completed
trials is below `n_startup_trials`, or `last_step` is absent, or `last_step <
n_warmup_steps`; otherwise it collects the value at `last_step` from every stored
trial that has one — INCLUDING the given trial itself — takes their NaN-ignoring
median, and prunes iff the trial's own value at `last_step` strictly exceeds it.
When no other trial has a value at `last_step` the median is the trial's own value
and the strict comparison fails, so the result is false without a dedicated branch. -/
theorem c3_amended (p : Pruner) (storage : Storage) (trial : FrozenTrial) :
    Pruner.prune p storage trial = Pruner.pruneAmended p storage trial := by
  unfold Pruner.prune Pruner.pruneAmended Storage.get_all_trials
  simp only
  by_cases h1 :
      (storage.trials.filter (fun t => t.state = .completed)).length < p.n_startup_trials
  · simp [h1]
  · simp only [if_neg h1]
    cases hls : trial.last_step with
    | none => rfl
    | some ls =>
      by_cases h2 : ls < p.n_warmup_steps
      · simp [h2]
      · simp only [if_neg h2]
        rw [filterMap_eq_map_filter
          (fun (t : FrozenTrial) => dictGet? t.intermediate_values ls) PFloat.nan]
        cases hown : dictGet? trial.intermediate_values ls with
        | none => simp [hown, PFloat.nan_gt]
        | some own => simp [hown]

/-! ### Claim C5: immutability of finished trials -/

theorem sync_single_failing_entry (j : JournalStorage) (e : Journal)
    (hsync : j.next_op_id = j.logs.length)
    (happly : applyJournal j.trials j.last_created_trial_id e = Option.none) :
    (({ j with logs := j.logs ++ [e] } : JournalStorage).sync).2 = false ∧
    (({ j with logs := j.logs ++ [e] } : JournalStorage).sync).1.trials = j.trials := by
  unfold JournalStorage.sync
  simp only [hsync, List.drop_left]
  unfold replayJournal
  rw [happly]
  exact ⟨rfl, rfl⟩

/-- A journal state in which trial 0 is already Completed and the log is fully
synced (the state reached by `create_new_trial`, `set_trial_state(0, completed)`,
then any read). -/
def c5Journal : JournalStorage :=
  { logs := [Journal.create_new_trial, Journal.set_trial_state 0 .completed]
    trials := [{ trial_id := 0, state := .completed }]
    last_created_trial_id := 0
    next_op_id := 2
    file := [Journal.create_new_trial, Journal.set_trial_state 0 .completed] }

/-- Claim C5 counterexample: trial 0 of `c5Journal` is finished (Completed), yet
`JournalStorage.set_trial_value` does not check `is_finished` and does not fail: it
returns normally, merely appending the entry to the log. The precondition is only
enforced later, inside the next `_sync`. -/
theorem c5_counterexample :
    (c5Journal.trials.get? 0).map FrozenTrial.is_finished = some true ∧
    JournalStorage.set_trial_value c5Journal 0 (.val 1) =
      { c5Journal with logs := c5Journal.logs ++ [Journal.set_trial_value 0 (.val 1)] } :=
  ⟨rfl, rfl⟩

/-- Claim C5 (amended): for a trial whose state is terminal, every mutating call on
`Storage` checks `is_finished` first and fails with the fatal assertion, leaving the
state unchanged; on `JournalStorage` the mutating calls succeed unconditionally,
appending the entry to the log, and the `is_finished` check fires at the next
`_sync` (here: a synced journal), which raises and leaves the trial list unchanged. -/
theorem c5_amended :
    (∀ (s : Storage) (tid : ℕ) (trial : FrozenTrial),
      s.trials.get? tid = some trial → trial.is_finished = true →
      (∀ v, s.set_trial_value tid v = Option.none) ∧
      (∀ st, s.set_trial_state tid st = Option.none) ∧
      (∀ name d v, s.set_trial_param tid name d v = Option.none) ∧
      (∀ step v, s.set_trial_intermediate_value tid step v = Option.none)) ∧
    (∀ (j : JournalStorage) (tid : ℕ) (trial : FrozenTrial),
      j.next_op_id = j.logs.length →
      j.trials.get? tid = some trial → trial.is_finished = true →
      (∀ v, ((j.set_trial_value tid v).sync).2 = false ∧
        ((j.set_trial_value tid v).sync).1.trials = j.trials) ∧
      (∀ st, ((j.set_trial_state tid st).sync).2 = false ∧
        ((j.set_trial_state tid st).sync).1.trials = j.trials) ∧
      (∀ name d v, ((j.set_trial_param tid name d v).sync).2 = false ∧
        ((j.set_trial_param tid name d v).sync).1.trials = j.trials) ∧
      (∀ step v, ((j.set_trial_intermediate_value tid step v).sync).2 = false ∧
        ((j.set_trial_intermediate_value tid step v).sync).1.trials = j.trials)) := by
  constructor
  · intro s tid trial hget hfin
    refine ⟨fun v => ?_, fun st => ?_, fun name d v => ?_, fun step v => ?_⟩
    · unfold Storage.set_trial_value
      rw [hget]
      simp [hfin]
    · unfold Storage.set_trial_state
      rw [hget]
      simp [hfin]
    · unfold Storage.set_trial_param
      rw [hget]
      simp [hfin]
    · unfold Storage.set_trial_intermediate_value
      rw [hget]
      simp [hfin]
  · intro j tid trial hsync hget hfin
    have hget' : j.trials[tid]? = some trial := by
      rw [← List.get?_eq_getElem?]
      exact hget
    refine ⟨fun v => ?_, fun st => ?_, fun name d v => ?_, fun step v => ?_⟩
    · exact sync_single_failing_entry j _ hsync
        (by simp [applyJournal, hget', hfin])
    · exact sync_single_failing_entry j _ hsync
        (by simp [applyJournal, hget', hfin])
    · exact sync_single_failing_entry j _ hsync
        (by simp [applyJournal, hget', hfin])
    · exact sync_single_failing_entry j _ hsync
        (by simp [applyJournal, hget', hfin])

/-- Witness for the amended C5: a Storage with a Completed trial rejects
`set_trial_value`, and the synced journal `c5Journal` with the same Completed trial
accepts the call but fails at the next sync with the trial list unchanged. -/
theorem c5_amended_witness :
    ((Storage.mk [{ trial_id := 0, state := .completed }]).trials.get? 0 =
        some { trial_id := 0, state := .completed } ∧
      FrozenTrial.is_finished { trial_id := 0, state := .completed } = true ∧
      (Storage.mk [{ trial_id := 0, state := .completed }]).set_trial_value 0 (.val 1) =
        Option.none) ∧
    (c5Journal.next_op_id = c5Journal.logs.length ∧
      ((c5Journal.set_trial_value 0 (.val 1)).sync).2 = false ∧
      ((c5Journal.set_trial_value 0 (.val 1)).sync).1.trials = c5Journal.trials) := by
  refine ⟨⟨rfl, rfl, ?_⟩, rfl, ?_, ?_⟩
  · exact ((c5_amended.1 (Storage.mk [{ trial_id := 0, state := .completed }]) 0
      { trial_id := 0, state := .completed } rfl rfl).1 (.val 1))
  · exact ((c5_amended.2 c5Journal 0 { trial_id := 0, state := .completed } rfl rfl rfl).1
      (.val 1)).1
  · exact ((c5_amended.2 c5Journal 0 { trial_id := 0, state := .completed } rfl rfl rfl).1
      (.val 1)).2


/-! ### Replay lemmas for the journal -/

theorem replayJournal_nil (t : List FrozenTrial) (lc : ℤ) :
    replayJournal t lc [] = ⟨t, lc, [], true⟩ :=
  rfl

theorem replayJournal_cons_some (t : List FrozenTrial) (lc : ℤ) (t' : List FrozenTrial)
    (lc' : ℤ) (e : Journal) (rest : List Journal)
    (happ : applyJournal t lc e = some (t', lc')) :
    replayJournal t lc (e :: rest) =
      { trials := (replayJournal t' lc' rest).trials
        last_created_trial_id := (replayJournal t' lc' rest).last_created_trial_id
        written := e :: (replayJournal t' lc' rest).written
        ok := (replayJournal t' lc' rest).ok } := by
  simp only [replayJournal, happ]

theorem replayJournal_cons_none (t : List FrozenTrial) (lc : ℤ) (e : Journal)
    (rest : List Journal) (happ : applyJournal t lc e = Option.none) :
    replayJournal t lc (e :: rest) = ⟨t, lc, [e], false⟩ := by
  unfold replayJournal
  rw [happ]

theorem replay_ok_written (t : List FrozenTrial) (lc : ℤ) (es : List Journal)
    (h : (replayJournal t lc es).ok = true) : (replayJournal t lc es).written = es := by
  induction es generalizing t lc with
  | nil => rfl
  | cons e rest ih =>
    cases happ : applyJournal t lc e with
    | none =>
      rw [replayJournal_cons_none t lc e rest happ] at h
      simp at h
    | some p =>
      obtain ⟨t', lc'⟩ := p
      rw [replayJournal_cons_some t lc t' lc' e rest happ] at h ⊢
      simp only at h ⊢
      rw [ih t' lc' h]

theorem replay_append (t : List FrozenTrial) (lc : ℤ) (a b : List Journal)
    (h : (replayJournal t lc a).ok = true) :
    replayJournal t lc (a ++ b) =
      { trials := (replayJournal (replayJournal t lc a).trials
            (replayJournal t lc a).last_created_trial_id b).trials
        last_created_trial_id := (replayJournal (replayJournal t lc a).trials
            (replayJournal t lc a).last_created_trial_id b).last_created_trial_id
        written := (replayJournal t lc a).written ++
            (replayJournal (replayJournal t lc a).trials
              (replayJournal t lc a).last_created_trial_id b).written
        ok := (replayJournal (replayJournal t lc a).trials
            (replayJournal t lc a).last_created_trial_id b).ok } := by
  induction a generalizing t lc with
  | nil => simp [replayJournal_nil]
  | cons e rest ih =>
    cases happ : applyJournal t lc e with
    | none =>
      rw [replayJournal_cons_none t lc e rest happ] at h
      simp at h
    | some p =>
      obtain ⟨t', lc'⟩ := p
      have hok : (replayJournal t' lc' rest).ok = true := by
        rw [replayJournal_cons_some t lc t' lc' e rest happ] at h
        exact h
      show replayJournal t lc (e :: (rest ++ b)) = _
      rw [replayJournal_cons_some t lc t' lc' e (rest ++ b) happ, ih t' lc' hok,
        replayJournal_cons_some t lc t' lc' e rest happ]
      simp

theorem replay_ok_of_append_ok (t : List FrozenTrial) (lc : ℤ) (a b : List Journal)
    (h : (replayJournal t lc (a ++ b)).ok = true) :
    (replayJournal t lc a).ok = true := by
  induction a generalizing t lc with
  | nil => rfl
  | cons e rest ih =>
    cases happ : applyJournal t lc e with
    | none =>
      rw [show (e :: rest) ++ b = e :: (rest ++ b) from rfl,
        replayJournal_cons_none t lc e (rest ++ b) happ] at h
      simp at h
    | some p =>
      obtain ⟨t', lc'⟩ := p
      rw [show (e :: rest) ++ b = e :: (rest ++ b) from rfl,
        replayJournal_cons_some t lc t' lc' e (rest ++ b) happ] at h
      simp only at h
      rw [replayJournal_cons_some t lc t' lc' e rest happ]
      exact ih t' lc' h

/-! ### Claims C6 and C10: sync discipline -/

/-- Claim C6 (amended): when `_sync` completes without raising, it has processed the
pending entries from the cursor onward in strict append order, appended each to the
durable file exactly once (before applying it — the loop writes then applies), and
advanced the cursor to the end of the log, so a later sync applies nothing again;
every read forces a full sync first and only returns after it succeeds. When an
entry raises, however, the cursor is NOT advanced, so the entries of that batch may
be processed again by a later sync (see the counterexample). -/
theorem c6_amended (j : JournalStorage) (h : (j.sync).2 = true) :
    (j.sync).1.logs = j.logs ∧
    (j.sync).1.next_op_id = j.logs.length ∧
    (j.sync).1.file = j.file ++ j.logs.drop j.next_op_id ∧
    (j.sync).1.sync = ((j.sync).1, true) ∧
    j.get_all_trials = ((j.sync).1, some (j.sync).1.trials) ∧
    (∀ tid, j.get_trial tid = ((j.sync).1, (j.sync).1.trials.get? tid)) := by
  have hok : (replayJournal j.trials j.last_created_trial_id
      (j.logs.drop j.next_op_id)).ok = true := h
  refine ⟨rfl, ?_, ?_, ?_, ?_, fun tid => ?_⟩
  · show (if (replayJournal j.trials j.last_created_trial_id
        (j.logs.drop j.next_op_id)).ok = true then j.logs.length else j.next_op_id) =
      j.logs.length
    rw [if_pos hok]
  · show j.file ++ (replayJournal j.trials j.last_created_trial_id
        (j.logs.drop j.next_op_id)).written = j.file ++ j.logs.drop j.next_op_id
    rw [replay_ok_written _ _ _ hok]
  · unfold JournalStorage.sync
    simp [hok, replayJournal_nil, List.drop_length]
  · unfold JournalStorage.get_all_trials
    simp [h]
  · unfold JournalStorage.get_trial
    simp [h]

/-- Witness for the amended C6: a fresh journal holding one unsynced
CREATE_NEW_TRIAL entry; its sync succeeds and the conclusions hold concretely. -/
theorem c6_amended_witness :
    ((({ logs := [Journal.create_new_trial] } : JournalStorage).sync).2 = true) ∧
    ((({ logs := [Journal.create_new_trial] } : JournalStorage).sync).1.logs =
        ({ logs := [Journal.create_new_trial] } : JournalStorage).logs ∧
      ((({ logs := [Journal.create_new_trial] } : JournalStorage).sync).1.next_op_id =
        ({ logs := [Journal.create_new_trial] } : JournalStorage).logs.length) ∧
      ((({ logs := [Journal.create_new_trial] } : JournalStorage).sync).1.file =
        ({ logs := [Journal.create_new_trial] } : JournalStorage).file ++
          ({ logs := [Journal.create_new_trial] } : JournalStorage).logs.drop
            ({ logs := [Journal.create_new_trial] } : JournalStorage).next_op_id) ∧
      ((({ logs := [Journal.create_new_trial] } : JournalStorage).sync).1.sync =
        ((({ logs := [Journal.create_new_trial] } : JournalStorage).sync).1, true)) ∧
      (({ logs := [Journal.create_new_trial] } : JournalStorage).get_all_trials =
        ((({ logs := [Journal.create_new_trial] } : JournalStorage).sync).1,
          some ((({ logs := [Journal.create_new_trial] } : JournalStorage).sync).1.trials))) ∧
      (∀ tid, ({ logs := [Journal.create_new_trial] } : JournalStorage).get_trial tid =
        ((({ logs := [Journal.create_new_trial] } : JournalStorage).sync).1,
          ((({ logs := [Journal.create_new_trial] } : JournalStorage).sync).1.trials.get?
            tid)))) :=
  ⟨rfl, c6_amended { logs := [Journal.create_new_trial] } rfl⟩

/-- Claim C6 counterexample, reachable through the public API: create one trial
(entry synced), log an intermediate value for it, then log a value for the
nonexistent trial 1. The first read's sync applies the intermediate-value entry
(trial 0's dict gains it, and the entry is written to the durable file) but raises
on the bad entry, leaving the cursor at 1 — NOT advanced past the processed entry.
The second read then processes the same entry again: the file ends with 5 records
for 3 log entries, so "each entry is written/applied exactly once" fails. -/
theorem c6_counterexample :
    let j3 := (((JournalStorage.create_new_trial {}).1.set_trial_intermediate_value 0 0
      (.val 7)).set_trial_value 1 (.val 5))
    let j4 := (j3.get_all_trials).1
    let j5 := (j4.get_all_trials).1
    j3.logs.length = 3 ∧
    (j4.trials.get? 0).map (fun t => t.intermediate_values) = some [(0, .val 7)] ∧
    j4.next_op_id = 1 ∧
    j4.file.length = 3 ∧
    j5.file.length = 5 := by
  with_unfolding_all decide

/-- Claim C10: `JournalStorage.create_new_trial` appends the CREATE_NEW_TRIAL entry
and immediately runs a full sync before returning: when it returns an id (sync did
not raise), the cursor covers the whole log, the new entry and every earlier pending
entry are in the durable file, and the returned id is `last_created_trial_id` as
assigned during that sync — the id of the Running trial appended at the end of the
trial list. (The hypothesis `next_op_id ≤ len(logs)` holds in every reachable
state.) -/
theorem c10_create_syncs (j : JournalStorage) (id : ℤ)
    (hwf : j.next_op_id ≤ j.logs.length)
    (h : (j.create_new_trial).2 = some id) :
    (j.create_new_trial).1.logs = j.logs ++ [Journal.create_new_trial] ∧
    (j.create_new_trial).1.next_op_id = j.logs.length + 1 ∧
    (j.create_new_trial).1.file =
      j.file ++ j.logs.drop j.next_op_id ++ [Journal.create_new_trial] ∧
    id = (j.create_new_trial).1.last_created_trial_id ∧
    (∃ k : ℕ, id = (k : ℤ) ∧ k + 1 = (j.create_new_trial).1.trials.length ∧
      (j.create_new_trial).1.trials.get? k = some { trial_id := k, state := .running }) := by
  have hdrop : (j.logs ++ [Journal.create_new_trial]).drop j.next_op_id =
      j.logs.drop j.next_op_id ++ [Journal.create_new_trial] := by
    rw [List.drop_append_eq_append_drop, Nat.sub_eq_zero_of_le hwf, List.drop_zero]
  have hok : (replayJournal j.trials j.last_created_trial_id
      ((j.logs ++ [Journal.create_new_trial]).drop j.next_op_id)).ok = true := by
    by_contra hnot
    have hfalse : (replayJournal j.trials j.last_created_trial_id
        ((j.logs ++ [Journal.create_new_trial]).drop j.next_op_id)).ok = false := by
      cases hv : (replayJournal j.trials j.last_created_trial_id
          ((j.logs ++ [Journal.create_new_trial]).drop j.next_op_id)).ok
      · rfl
      · exact absurd hv hnot
    have : (j.create_new_trial).2 = Option.none := by
      unfold JournalStorage.create_new_trial JournalStorage.sync
      simp only [hfalse]
      simp
    rw [this] at h
    exact Option.noConfusion h
  rw [hdrop] at hok
  have hprefix := replay_ok_of_append_ok j.trials j.last_created_trial_id _ _ hok
  have happc : ∀ (t : List FrozenTrial) (lc : ℤ),
      applyJournal t lc Journal.create_new_trial =
        some (t ++ [{ trial_id := t.length, state := .running }], (t.length : ℤ)) :=
    fun t lc => rfl
  have hsingle : ∀ (t : List FrozenTrial) (lc : ℤ),
      replayJournal t lc [Journal.create_new_trial] =
        ⟨t ++ [{ trial_id := t.length, state := .running }], (t.length : ℤ),
          [Journal.create_new_trial], true⟩ := by
    intro t lc
    rw [replayJournal_cons_some t lc (t ++ [{ trial_id := t.length, state := .running }])
      (t.length : ℤ) Journal.create_new_trial [] (happc t lc)]
    simp [replayJournal_nil]
  have hfull : replayJournal j.trials j.last_created_trial_id
      (j.logs.drop j.next_op_id ++ [Journal.create_new_trial]) =
      ⟨(replayJournal j.trials j.last_created_trial_id (j.logs.drop j.next_op_id)).trials ++
          [{ trial_id := (replayJournal j.trials j.last_created_trial_id
              (j.logs.drop j.next_op_id)).trials.length, state := .running }],
        ((replayJournal j.trials j.last_created_trial_id
            (j.logs.drop j.next_op_id)).trials.length : ℤ),
        j.logs.drop j.next_op_id ++ [Journal.create_new_trial], true⟩ := by
    rw [replay_append _ _ _ _ hprefix, hsingle]
    simp [replay_ok_written _ _ _ hprefix]
  unfold JournalStorage.create_new_trial JournalStorage.sync at h ⊢
  simp only [hdrop, hfull] at h ⊢
  simp only [List.length_append] at h ⊢
  simp at h
  refine ⟨trivial, by simp, by simp, h.symm, ?_⟩
  refine ⟨(replayJournal j.trials j.last_created_trial_id
    (j.logs.drop j.next_op_id)).trials.length, h.symm, by simp, ?_⟩
  rw [List.get?_eq_getElem?, List.getElem?_concat_length]

/-- Witness for C10 at the fresh journal: `create_new_trial` returns id 0, with the
entry logged, synced and durably written, and trial 0 appended as Running. -/
theorem c10_create_syncs_witness :
    ({} : JournalStorage).next_op_id ≤ ({} : JournalStorage).logs.length ∧
    (JournalStorage.create_new_trial ({} : JournalStorage)).2 = some 0 ∧
    ((JournalStorage.create_new_trial ({} : JournalStorage)).1.logs =
        ({} : JournalStorage).logs ++ [Journal.create_new_trial] ∧
      (JournalStorage.create_new_trial ({} : JournalStorage)).1.next_op_id =
        ({} : JournalStorage).logs.length + 1 ∧
      (JournalStorage.create_new_trial ({} : JournalStorage)).1.file =
        ({} : JournalStorage).file ++
          ({} : JournalStorage).logs.drop ({} : JournalStorage).next_op_id ++
          [Journal.create_new_trial] ∧
      (0 : ℤ) = (JournalStorage.create_new_trial ({} : JournalStorage)).1.last_created_trial_id ∧
      (∃ k : ℕ, (0 : ℤ) = (k : ℤ) ∧
        k + 1 = (JournalStorage.create_new_trial ({} : JournalStorage)).1.trials.length ∧
        (JournalStorage.create_new_trial ({} : JournalStorage)).1.trials.get? k =
          some { trial_id := k, state := .running })) :=
  ⟨by decide, rfl, c10_create_syncs {} 0 (by decide) rfl⟩

/-! ### Claim C9: dense, ordered, stable trial ids -/

/-- One mutating storage operation (the shared API surface of both storages). -/
inductive StorageOp where
  | create
  | setValue (trial_id : ℕ) (value : PFloat)
  | setState (trial_id : ℕ) (state : TrialStateType)
  | setParam (trial_id : ℕ) (name : String) (distribution : BaseDistribution)
      (value : PFloat)
  | setIntermediate (trial_id : ℕ) (step : ℤ) (value : PFloat)
deriving DecidableEq, Repr

/-- Dispatch one call on `Storage`; `none` = the call raised. -/
def Storage.applyOp (s : Storage) : StorageOp → Option Storage
  | .create => some (s.create_new_trial).1
  | .setValue tid v => s.set_trial_value tid v
  | .setState tid st => s.set_trial_state tid st
  | .setParam tid name d v => s.set_trial_param tid name d v
  | .setIntermediate tid step v => s.set_trial_intermediate_value tid step v

/-- Run a sequence of calls where the caller catches every raised error and
continues; a raising call leaves the storage unchanged. -/
def Storage.runOpsTotal (s : Storage) (ops : List StorageOp) : Storage :=
  ops.foldl (fun s op => (s.applyOp op).getD s) s

/-- One public JournalStorage call: a mutating operation, or any of the reads
(`get_trial` / `get_all_trials` / `get_best_trial`) — which each just `_sync`. -/
inductive JournalCall where
  | op (o : StorageOp)
  | read
deriving DecidableEq, Repr

/-- Dispatch one call on `JournalStorage`. Total: a raised error is caught by the
caller, and the partially mutated state remains (Python mutates in place). -/
def JournalStorage.applyCall (j : JournalStorage) : JournalCall → JournalStorage
  | .op .create => (j.create_new_trial).1
  | .op (.setValue tid v) => j.set_trial_value tid v
  | .op (.setState tid st) => j.set_trial_state tid st
  | .op (.setParam tid name d v) => j.set_trial_param tid name d v
  | .op (.setIntermediate tid step v) => j.set_trial_intermediate_value tid step v
  | .read => (j.sync).1

/-- Run a sequence of JournalStorage calls. -/
def JournalStorage.runCalls (j : JournalStorage) (calls : List JournalCall) :
    JournalStorage :=
  calls.foldl (fun j c => j.applyCall c) j

/-- Trial ids are dense and ordered: the trial at position i has trial_id = i. -/
def idsDense (trials : List FrozenTrial) : Prop :=
  trials.map (fun t => t.trial_id) = List.range trials.length

theorem map_trialId_set (l : List FrozenTrial) (tid : ℕ) (t t' : FrozenTrial)
    (hget : l.get? tid = some t) (hid : t'.trial_id = t.trial_id) :
    (l.set tid t').map (fun x => x.trial_id) = l.map (fun x => x.trial_id) := by
  induction l generalizing tid with
  | nil => simp at hget
  | cons a rest ih =>
    cases tid with
    | zero =>
      simp only [List.get?] at hget
      obtain rfl : a = t := by injection hget
      simp [List.set, hid]
    | succ n =>
      simp only [List.get?] at hget
      simp [List.set, ih n hget]

theorem idsDense_set (l : List FrozenTrial) (tid : ℕ) (t t' : FrozenTrial)
    (hd : idsDense l) (hget : l.get? tid = some t) (hid : t'.trial_id = t.trial_id) :
    idsDense (l.set tid t') := by
  unfold idsDense at hd ⊢
  rw [List.length_set, map_trialId_set l tid t t' hget hid]
  exact hd

theorem idsDense_append_create (l : List FrozenTrial) (hd : idsDense l) :
    idsDense (l ++ [{ trial_id := l.length, state := .running }]) := by
  unfold idsDense at hd ⊢
  simp [List.range_succ, hd]

theorem applyJournal_idsDense (trials : List FrozenTrial) (lc : ℤ) (e : Journal)
    (trials' : List FrozenTrial) (lc' : ℤ) (hd : idsDense trials)
    (h : applyJournal trials lc e = some (trials', lc')) : idsDense trials' := by
  cases e with
  | create_new_trial =>
    simp only [applyJournal] at h
    injection h with hp
    injection hp with h1 h2
    subst h1
    exact idsDense_append_create trials hd
  | set_trial_value tid v =>
    simp only [applyJournal] at h
    cases hget : trials.get? tid with
    | none =>
      simp only [hget] at h
      exact Option.noConfusion h
    | some trial =>
      simp only [hget] at h
      by_cases hfin : trial.is_finished = true
      · rw [if_pos hfin] at h
        exact Option.noConfusion h
      · rw [if_neg hfin] at h
        injection h with hp
        injection hp with h1 h2
        subst h1
        exact idsDense_set trials tid trial _ hd hget rfl
  | set_trial_state tid st =>
    simp only [applyJournal] at h
    cases hget : trials.get? tid with
    | none =>
      simp only [hget] at h
      exact Option.noConfusion h
    | some trial =>
      simp only [hget] at h
      by_cases hfin : trial.is_finished = true
      · rw [if_pos hfin] at h
        exact Option.noConfusion h
      · rw [if_neg hfin] at h
        injection h with hp
        injection hp with h1 h2
        subst h1
        exact idsDense_set trials tid trial _ hd hget rfl
  | set_trial_param tid name dist v =>
    simp only [applyJournal] at h
    cases hget : trials.get? tid with
    | none =>
      simp only [hget] at h
      exact Option.noConfusion h
    | some trial =>
      simp only [hget] at h
      by_cases hfin : trial.is_finished = true
      · rw [if_pos hfin] at h
        exact Option.noConfusion h
      · rw [if_neg hfin] at h
        injection h with hp
        injection hp with h1 h2
        subst h1
        exact idsDense_set trials tid trial _ hd hget rfl
  | set_trial_intermediate_value tid step v =>
    simp only [applyJournal] at h
    cases hget : trials.get? tid with
    | none =>
      simp only [hget] at h
      exact Option.noConfusion h
    | some trial =>
      simp only [hget] at h
      by_cases hfin : trial.is_finished = true
      · rw [if_pos hfin] at h
        exact Option.noConfusion h
      · rw [if_neg hfin] at h
        injection h with hp
        injection hp with h1 h2
        subst h1
        exact idsDense_set trials tid trial _ hd hget rfl

theorem replay_idsDense (t : List FrozenTrial) (lc : ℤ) (es : List Journal)
    (hd : idsDense t) : idsDense (replayJournal t lc es).trials := by
  induction es generalizing t lc with
  | nil => exact hd
  | cons e rest ih =>
    cases happ : applyJournal t lc e with
    | none =>
      rw [replayJournal_cons_none t lc e rest happ]
      exact hd
    | some p =>
      obtain ⟨t', lc'⟩ := p
      rw [replayJournal_cons_some t lc t' lc' e rest happ]
      exact ih t' lc' (applyJournal_idsDense t lc e t' lc' hd happ)

theorem storage_applyOp_idsDense (s s' : Storage) (op : StorageOp)
    (hd : idsDense s.trials) (h : s.applyOp op = some s') : idsDense s'.trials := by
  cases op with
  | create =>
    simp only [Storage.applyOp] at h
    injection h with h1
    subst h1
    exact idsDense_append_create s.trials hd
  | setValue tid v =>
    simp only [Storage.applyOp, Storage.set_trial_value] at h
    cases hget : s.trials.get? tid with
    | none =>
      simp only [hget] at h
      exact Option.noConfusion h
    | some trial =>
      simp only [hget] at h
      by_cases hfin : trial.is_finished = true
      · rw [if_pos hfin] at h
        exact Option.noConfusion h
      · rw [if_neg hfin] at h
        injection h with h1
        subst h1
        exact idsDense_set s.trials tid trial _ hd hget rfl
  | setState tid st =>
    simp only [Storage.applyOp, Storage.set_trial_state] at h
    cases hget : s.trials.get? tid with
    | none =>
      simp only [hget] at h
      exact Option.noConfusion h
    | some trial =>
      simp only [hget] at h
      by_cases hfin : trial.is_finished = true
      · rw [if_pos hfin] at h
        exact Option.noConfusion h
      · rw [if_neg hfin] at h
        injection h with h1
        subst h1
        exact idsDense_set s.trials tid trial _ hd hget rfl
  | setParam tid name d v =>
    simp only [Storage.applyOp, Storage.set_trial_param] at h
    cases hget : s.trials.get? tid with
    | none =>
      simp only [hget] at h
      exact Option.noConfusion h
    | some trial =>
      simp only [hget] at h
      by_cases hfin : trial.is_finished = true
      · rw [if_pos hfin] at h
        exact Option.noConfusion h
      · rw [if_neg hfin] at h
        injection h with h1
        subst h1
        exact idsDense_set s.trials tid trial _ hd hget rfl
  | setIntermediate tid step v =>
    simp only [Storage.applyOp, Storage.set_trial_intermediate_value] at h
    cases hget : s.trials.get? tid with
    | none =>
      simp only [hget] at h
      exact Option.noConfusion h
    | some trial =>
      simp only [hget] at h
      by_cases hfin : trial.is_finished = true
      · rw [if_pos hfin] at h
        exact Option.noConfusion h
      · rw [if_neg hfin] at h
        injection h with h1
        subst h1
        exact idsDense_set s.trials tid trial _ hd hget rfl

theorem runOpsTotal_idsDense (ops : List StorageOp) (s : Storage)
    (hd : idsDense s.trials) : idsDense ((s.runOpsTotal ops).trials) := by
  induction ops generalizing s with
  | nil => exact hd
  | cons op rest ih =>
    show idsDense ((Storage.runOpsTotal ((s.applyOp op).getD s) rest).trials)
    apply ih
    cases hres : s.applyOp op with
    | none => simpa [hres] using hd
    | some s' =>
      have h' := storage_applyOp_idsDense s s' op hd hres
      simpa [hres] using h'

theorem journal_applyCall_idsDense (j : JournalStorage) (c : JournalCall)
    (hd : idsDense j.trials) : idsDense ((j.applyCall c).trials) := by
  cases c with
  | read => exact replay_idsDense j.trials j.last_created_trial_id _ hd
  | op o =>
    cases o with
    | create => exact replay_idsDense j.trials j.last_created_trial_id _ hd
    | setValue tid v => exact hd
    | setState tid st => exact hd
    | setParam tid name d v => exact hd
    | setIntermediate tid step v => exact hd

theorem runCalls_idsDense (calls : List JournalCall) (j : JournalStorage)
    (hd : idsDense j.trials) : idsDense ((j.runCalls calls).trials) := by
  induction calls generalizing j with
  | nil => exact hd
  | cons c rest ih =>
    show idsDense ((JournalStorage.runCalls (j.applyCall c) rest).trials)
    exact ih (j.applyCall c) (journal_applyCall_idsDense j c hd)

/-- Claim C9: trial ids are dense, ordered and stable. In every state of Storage
reachable by any sequence of calls from the fresh storage — raising calls caught and
continued — and in every state of JournalStorage reachable by any sequence of
mutating calls and reads, the trial at position i has trial_id = i (so no removal
and no id reuse). Moreover `create_new_trial` appends a Running trial whose id is
the number of existing trials, both in Storage and in the replay of a
CREATE_NEW_TRIAL journal entry. -/
theorem c9_ids_dense :
    (∀ ops : List StorageOp, idsDense ((Storage.runOpsTotal {} ops).trials)) ∧
    (∀ calls : List JournalCall, idsDense ((JournalStorage.runCalls {} calls).trials)) ∧
    (∀ s : Storage, (s.create_new_trial).2 = s.trials.length ∧
      (s.create_new_trial).1.trials =
        s.trials ++ [{ trial_id := s.trials.length, state := .running }]) ∧
    (∀ (trials : List FrozenTrial) (lc : ℤ),
      applyJournal trials lc .create_new_trial =
        some (trials ++ [{ trial_id := trials.length, state := .running }],
          (trials.length : ℤ))) :=
  ⟨fun ops => runOpsTotal_idsDense ops {} rfl,
   fun calls => runCalls_idsDense calls {} rfl,
   fun s => ⟨rfl, rfl⟩,
   fun trials lc => rfl⟩

/-! ### Claim C1: JournalStorage refines Storage (log-then-sync replay) -/

/-- How a `Storage`-stored distribution appears after a journal round trip: the
object was rendered with `str(...)` when the entry was logged, so the replayed
trial holds the string, not the object. -/
def storedToJournal : StoredDistribution → StoredDistribution
  | .obj d => .str (distStr d)
  | .str s => .str s

/-- The image of a Storage trial in JournalStorage's replayed model: identical
except that every stored distribution object is replaced by its string form. -/
def journalView (t : FrozenTrial) : FrozenTrial :=
  { t with distributions := t.distributions.map (fun p => (p.1, storedToJournal p.2)) }

/-- Run a sequence of mutating operations on `Storage`; `none` = some call raised
and the sequence aborts. -/
def Storage.runOps (s : Storage) : List StorageOp → Option Storage
  | [] => some s
  | op :: rest =>
    match s.applyOp op with
    | Option.none => Option.none
    | some s' => s'.runOps rest

/-- Run the same sequence of mutating operations on `JournalStorage`. -/
def JournalStorage.runOps (j : JournalStorage) (ops : List StorageOp) : JournalStorage :=
  ops.foldl (fun j o => j.applyCall (.op o)) j

theorem dictSet_map_snd {κ ν ν' : Type} [DecidableEq κ] (g : ν → ν')
    (d : List (κ × ν)) (k : κ) (v : ν) :
    (dictSet d k v).map (fun p => (p.1, g p.2)) =
      dictSet (d.map (fun p => (p.1, g p.2))) k (g v) := by
  induction d with
  | nil => rfl
  | cons p rest ih =>
    obtain ⟨k', v'⟩ := p
    by_cases hk : k' = k
    · simp [dictSet, hk]
    · simp [dictSet, hk, ih]

theorem journalView_state (t : FrozenTrial) : (journalView t).state = t.state := rfl

theorem journalView_is_finished (t : FrozenTrial) :
    (journalView t).is_finished = t.is_finished := rfl

/-- Replaying the journal entry produced by one storage call, starting from the
journal image of the storage's trials, yields the journal image of the resulting
trials (`last_created_trial_id` is only changed by a create). -/
theorem applyOp_step (s s' : Storage) (lc : ℤ) (op : StorageOp)
    (h : s.applyOp op = some s') :
    ∃ lc' : ℤ,
      applyJournal (s.trials.map journalView) lc
        (match op with
          | .create => Journal.create_new_trial
          | .setValue tid v => Journal.set_trial_value tid v
          | .setState tid st => Journal.set_trial_state tid st
          | .setParam tid name d v => Journal.set_trial_param tid name (distStr d) v
          | .setIntermediate tid step v =>
            Journal.set_trial_intermediate_value tid step v) =
      some (s'.trials.map journalView, lc') := by
  cases op with
  | create =>
    simp only [Storage.applyOp] at h
    injection h with h1
    subst h1
    refine ⟨(s.trials.length : ℤ), ?_⟩
    simp only [applyJournal, List.length_map]
    have hnew : journalView { trial_id := s.trials.length, state := .running } =
        { trial_id := s.trials.length, state := .running } := rfl
    simp [Storage.create_new_trial, List.map_append, hnew]
  | setValue tid v =>
    simp only [Storage.applyOp, Storage.set_trial_value] at h
    cases hget : s.trials.get? tid with
    | none =>
      simp only [hget] at h
      exact Option.noConfusion h
    | some trial =>
      simp only [hget] at h
      by_cases hfin : trial.is_finished = true
      · rw [if_pos hfin] at h
        exact Option.noConfusion h
      · rw [if_neg hfin] at h
        injection h with h1
        subst h1
        refine ⟨lc, ?_⟩
        simp only [applyJournal]
        rw [List.get?_map, hget]
        simp only [Option.map_some']
        rw [if_neg (by rw [journalView_is_finished]; exact hfin)]
        rw [List.map_set]
        rfl
  | setState tid st =>
    simp only [Storage.applyOp, Storage.set_trial_state] at h
    cases hget : s.trials.get? tid with
    | none =>
      simp only [hget] at h
      exact Option.noConfusion h
    | some trial =>
      simp only [hget] at h
      by_cases hfin : trial.is_finished = true
      · rw [if_pos hfin] at h
        exact Option.noConfusion h
      · rw [if_neg hfin] at h
        injection h with h1
        subst h1
        refine ⟨lc, ?_⟩
        simp only [applyJournal]
        rw [List.get?_map, hget]
        simp only [Option.map_some']
        rw [if_neg (by rw [journalView_is_finished]; exact hfin)]
        rw [List.map_set]
        rfl
  | setParam tid name d v =>
    simp only [Storage.applyOp, Storage.set_trial_param] at h
    cases hget : s.trials.get? tid with
    | none =>
      simp only [hget] at h
      exact Option.noConfusion h
    | some trial =>
      simp only [hget] at h
      by_cases hfin : trial.is_finished = true
      · rw [if_pos hfin] at h
        exact Option.noConfusion h
      · rw [if_neg hfin] at h
        injection h with h1
        subst h1
        refine ⟨lc, ?_⟩
        simp only [applyJournal]
        rw [List.get?_map, hget]
        simp only [Option.map_some']
        rw [if_neg (by rw [journalView_is_finished]; exact hfin)]
        rw [List.map_set]
        have hview : journalView { trial with
            distributions := dictSet trial.distributions name (.obj d)
            internal_params := dictSet trial.internal_params name v } =
            { journalView trial with
              distributions := dictSet (journalView trial).distributions name
                (.str (distStr d))
              internal_params := dictSet (journalView trial).internal_params name v } := by
          unfold journalView
          simp only
          rw [dictSet_map_snd]
          rfl
        rw [hview]
  | setIntermediate tid step v =>
    simp only [Storage.applyOp, Storage.set_trial_intermediate_value] at h
    cases hget : s.trials.get? tid with
    | none =>
      simp only [hget] at h
      exact Option.noConfusion h
    | some trial =>
      simp only [hget] at h
      by_cases hfin : trial.is_finished = true
      · rw [if_pos hfin] at h
        exact Option.noConfusion h
      · rw [if_neg hfin] at h
        injection h with h1
        subst h1
        refine ⟨lc, ?_⟩
        simp only [applyJournal]
        rw [List.get?_map, hget]
        simp only [Option.map_some']
        rw [if_neg (by rw [journalView_is_finished]; exact hfin)]
        rw [List.map_set]
        rfl

theorem replayJournal_single_create (t : List FrozenTrial) (lc : ℤ) :
    replayJournal t lc [Journal.create_new_trial] =
      ⟨t ++ [{ trial_id := t.length, state := .running }], (t.length : ℤ),
        [Journal.create_new_trial], true⟩ := by
  have happc : applyJournal t lc Journal.create_new_trial =
      some (t ++ [{ trial_id := t.length, state := .running }], (t.length : ℤ)) := rfl
  rw [replayJournal_cons_some t lc (t ++ [{ trial_id := t.length, state := .running }])
    (t.length : ℤ) Journal.create_new_trial [] happc]
  simp [replayJournal_nil]

/-- The simulation relation between a Storage state and a JournalStorage state:
the journal's applied prefix reproduces its in-memory fields, and replaying the
whole log from scratch yields the journal image of the storage's trials. -/
def journalRel (s : Storage) (j : JournalStorage) : Prop :=
  j.next_op_id ≤ j.logs.length ∧
  (replayJournal [] (-1) (j.logs.take j.next_op_id)).trials = j.trials ∧
  (replayJournal [] (-1) (j.logs.take j.next_op_id)).last_created_trial_id =
    j.last_created_trial_id ∧
  (replayJournal [] (-1) (j.logs.take j.next_op_id)).ok = true ∧
  (replayJournal [] (-1) j.logs).trials = s.trials.map journalView ∧
  (replayJournal [] (-1) j.logs).ok = true

/-- Under the simulation relation, replaying just the pending suffix from the
journal's in-memory state completes successfully and lands exactly on the journal
image of the storage's trials (this is what a sync does). -/
theorem journalRel_pending (s : Storage) (j : JournalStorage) (hR : journalRel s j) :
    (replayJournal j.trials j.last_created_trial_id (j.logs.drop j.next_op_id)).trials =
      s.trials.map journalView ∧
    (replayJournal j.trials j.last_created_trial_id (j.logs.drop j.next_op_id)).ok =
      true ∧
    (replayJournal j.trials j.last_created_trial_id (j.logs.drop j.next_op_id)).written =
      j.logs.drop j.next_op_id := by
  obtain ⟨hle, hpt, hpl, hpo, hft, hfo⟩ := hR
  have happ := replay_append [] (-1) (j.logs.take j.next_op_id)
    (j.logs.drop j.next_op_id) hpo
  rw [List.take_append_drop] at happ
  have htr : (replayJournal [] (-1) j.logs).trials =
      (replayJournal j.trials j.last_created_trial_id
        (j.logs.drop j.next_op_id)).trials := by
    have h1 := congrArg SyncResult.trials happ
    rw [hpt, hpl] at h1
    exact h1
  have hok : (replayJournal [] (-1) j.logs).ok =
      (replayJournal j.trials j.last_created_trial_id
        (j.logs.drop j.next_op_id)).ok := by
    have h1 := congrArg SyncResult.ok happ
    rw [hpt, hpl] at h1
    exact h1
  have hoko : (replayJournal j.trials j.last_created_trial_id
      (j.logs.drop j.next_op_id)).ok = true := hok.symm.trans hfo
  exact ⟨htr.symm.trans hft, hoko, replay_ok_written _ _ _ hoko⟩

theorem journalRel_append_entry (s s' : Storage) (j : JournalStorage) (e : Journal)
    (hR : journalRel s j)
    (hstep : ∀ lc : ℤ, ∃ lc', applyJournal (s.trials.map journalView) lc e =
      some (s'.trials.map journalView, lc')) :
    journalRel s' { j with logs := j.logs ++ [e] } := by
  obtain ⟨hle, hpt, hpl, hpo, hft, hfo⟩ := hR
  have htake : (j.logs ++ [e]).take j.next_op_id = j.logs.take j.next_op_id :=
    List.take_append_of_le_length hle
  have happ := replay_append [] (-1) j.logs [e] hfo
  obtain ⟨lc', hst⟩ := hstep ((replayJournal [] (-1) j.logs).last_created_trial_id)
  have hAtr : (replayJournal [] (-1) (j.logs ++ [e])).trials =
      s'.trials.map journalView := by
    have h1 := congrArg SyncResult.trials happ
    rw [hft] at h1
    rw [replayJournal_cons_some (s.trials.map journalView)
      ((replayJournal [] (-1) j.logs).last_created_trial_id)
      (s'.trials.map journalView) lc' e [] hst] at h1
    exact h1
  have hAok : (replayJournal [] (-1) (j.logs ++ [e])).ok = true := by
    have h1 := congrArg SyncResult.ok happ
    rw [hft] at h1
    rw [replayJournal_cons_some (s.trials.map journalView)
      ((replayJournal [] (-1) j.logs).last_created_trial_id)
      (s'.trials.map journalView) lc' e [] hst] at h1
    exact h1
  have hle' : ({ j with logs := j.logs ++ [e] } : JournalStorage).next_op_id ≤
      ({ j with logs := j.logs ++ [e] } : JournalStorage).logs.length := by
    show j.next_op_id ≤ (j.logs ++ [e]).length
    rw [List.length_append]
    omega
  refine ⟨hle', ?_, ?_, ?_, hAtr, hAok⟩
  · show (replayJournal [] (-1) ((j.logs ++ [e]).take j.next_op_id)).trials = j.trials
    rw [htake]
    exact hpt
  · show (replayJournal [] (-1) ((j.logs ++ [e]).take j.next_op_id)).last_created_trial_id =
      j.last_created_trial_id
    rw [htake]
    exact hpl
  · show (replayJournal [] (-1) ((j.logs ++ [e]).take j.next_op_id)).ok = true
    rw [htake]
    exact hpo

theorem journalRel_create (s s' : Storage) (j : JournalStorage)
    (hR : journalRel s j) (h : s.applyOp .create = some s') :
    journalRel s' (j.applyCall (.op .create)) := by
  obtain ⟨hpt', hpo', hpw'⟩ := journalRel_pending s j hR
  obtain ⟨hle, hpt, hpl, hpo, hft, hfo⟩ := hR
  simp only [Storage.applyOp] at h
  injection h with h1
  subst h1
  have hdrop : (j.logs ++ [Journal.create_new_trial]).drop j.next_op_id =
      j.logs.drop j.next_op_id ++ [Journal.create_new_trial] := by
    rw [List.drop_append_eq_append_drop, Nat.sub_eq_zero_of_le hle, List.drop_zero]
  have happ2 := replay_append j.trials j.last_created_trial_id
    (j.logs.drop j.next_op_id) [Journal.create_new_trial] hpo'
  have hBtr : (replayJournal j.trials j.last_created_trial_id
      (j.logs.drop j.next_op_id ++ [Journal.create_new_trial])).trials =
      s.trials.map journalView ++
        [{ trial_id := (s.trials.map journalView).length, state := .running }] := by
    have h1 := congrArg SyncResult.trials happ2
    rw [hpt'] at h1
    rw [replayJournal_single_create] at h1
    exact h1
  have hBlc : (replayJournal j.trials j.last_created_trial_id
      (j.logs.drop j.next_op_id ++ [Journal.create_new_trial])).last_created_trial_id =
      ((s.trials.map journalView).length : ℤ) := by
    have h1 := congrArg SyncResult.last_created_trial_id happ2
    rw [hpt'] at h1
    rw [replayJournal_single_create] at h1
    exact h1
  have hBok : (replayJournal j.trials j.last_created_trial_id
      (j.logs.drop j.next_op_id ++ [Journal.create_new_trial])).ok = true := by
    have h1 := congrArg SyncResult.ok happ2
    rw [hpt'] at h1
    rw [replayJournal_single_create] at h1
    exact h1
  have hBw : (replayJournal j.trials j.last_created_trial_id
      (j.logs.drop j.next_op_id ++ [Journal.create_new_trial])).written =
      j.logs.drop j.next_op_id ++ [Journal.create_new_trial] :=
    replay_ok_written _ _ _ hBok
  have happ3 := replay_append [] (-1) j.logs [Journal.create_new_trial] hfo
  have hAtr : (replayJournal [] (-1) (j.logs ++ [Journal.create_new_trial])).trials =
      s.trials.map journalView ++
        [{ trial_id := (s.trials.map journalView).length, state := .running }] := by
    have h1 := congrArg SyncResult.trials happ3
    rw [hft] at h1
    rw [replayJournal_single_create] at h1
    exact h1
  have hAlc : (replayJournal [] (-1)
      (j.logs ++ [Journal.create_new_trial])).last_created_trial_id =
      ((s.trials.map journalView).length : ℤ) := by
    have h1 := congrArg SyncResult.last_created_trial_id happ3
    rw [hft] at h1
    rw [replayJournal_single_create] at h1
    exact h1
  have hAok : (replayJournal [] (-1) (j.logs ++ [Journal.create_new_trial])).ok =
      true := by
    have h1 := congrArg SyncResult.ok happ3
    rw [hft] at h1
    rw [replayJournal_single_create] at h1
    exact h1
  have hj' : JournalStorage.applyCall j (.op .create) =
      { logs := j.logs ++ [Journal.create_new_trial]
        trials := s.trials.map journalView ++
          [{ trial_id := (s.trials.map journalView).length, state := .running }]
        last_created_trial_id := ((s.trials.map journalView).length : ℤ)
        next_op_id := (j.logs ++ [Journal.create_new_trial]).length
        file := j.file ++ (j.logs.drop j.next_op_id ++ [Journal.create_new_trial]) } := by
    show (({ j with logs := j.logs ++ [Journal.create_new_trial] } :
      JournalStorage).sync).1 = _
    unfold JournalStorage.sync
    simp only [hdrop, hBtr, hBlc, hBok, hBw, if_true]
  have hmap : (s.create_new_trial).1.trials.map journalView =
      s.trials.map journalView ++
        [{ trial_id := (s.trials.map journalView).length, state := .running }] := by
    show (s.trials ++ [({ trial_id := s.trials.length, state := .running } :
      FrozenTrial)]).map journalView = _
    rw [List.map_append, List.length_map]
    rfl
  rw [hj']
  refine ⟨le_refl _, ?_, ?_, ?_, ?_, ?_⟩
  · show (replayJournal [] (-1) ((j.logs ++ [Journal.create_new_trial]).take
      (j.logs ++ [Journal.create_new_trial]).length)).trials = _
    rw [List.take_length]
    exact hAtr
  · show (replayJournal [] (-1) ((j.logs ++ [Journal.create_new_trial]).take
      (j.logs ++ [Journal.create_new_trial]).length)).last_created_trial_id = _
    rw [List.take_length]
    exact hAlc
  · show (replayJournal [] (-1) ((j.logs ++ [Journal.create_new_trial]).take
      (j.logs ++ [Journal.create_new_trial]).length)).ok = true
    rw [List.take_length]
    exact hAok
  · show (replayJournal [] (-1) (j.logs ++ [Journal.create_new_trial])).trials = _
    rw [hAtr, hmap]
  · exact hAok

theorem journalRel_step (s s' : Storage) (j : JournalStorage) (op : StorageOp)
    (hR : journalRel s j) (h : s.applyOp op = some s') :
    journalRel s' (j.applyCall (.op op)) := by
  cases op with
  | create => exact journalRel_create s s' j hR h
  | setValue tid v =>
    exact journalRel_append_entry s s' j _ hR (fun lc => applyOp_step s s' lc _ h)
  | setState tid st =>
    exact journalRel_append_entry s s' j _ hR (fun lc => applyOp_step s s' lc _ h)
  | setParam tid name d v =>
    exact journalRel_append_entry s s' j _ hR (fun lc => applyOp_step s s' lc _ h)
  | setIntermediate tid step v =>
    exact journalRel_append_entry s s' j _ hR (fun lc => applyOp_step s s' lc _ h)

theorem journalRel_init : journalRel {} {} :=
  ⟨Nat.le_refl 0, rfl, rfl, rfl, rfl, rfl⟩

theorem runOps_rel (ops : List StorageOp) (s₀ : Storage) (j₀ : JournalStorage)
    (hR : journalRel s₀ j₀) (s : Storage) (h : s₀.runOps ops = some s) :
    journalRel s (j₀.runOps ops) := by
  induction ops generalizing s₀ j₀ with
  | nil =>
    simp only [Storage.runOps] at h
    injection h with h1
    subst h1
    exact hR
  | cons op rest ih =>
    simp only [Storage.runOps] at h
    cases hop : s₀.applyOp op with
    | none =>
      simp only [hop] at h
      exact Option.noConfusion h
    | some s₁ =>
      simp only [hop] at h
      exact ih s₁ (j₀.applyCall (.op op)) (journalRel_step s₀ s₁ j₀ op hR hop) h

/-- Claim C1 (amended): for every sequence of storage mutations that a fresh
`Storage` accepts without raising, the snapshots subsequently returned by
JournalStorage's `get_all_trials`/`get_trial` after its log-then-sync replay agree
with Storage's direct updates on trial ids, states, values, intermediate_values and
internal_params — but NOT on distributions: each trial's `distributions` map holds
the distribution objects in Storage and their `str(...)` renderings in
JournalStorage (`journalView` is exactly that transformation). -/
theorem c1_amended (ops : List StorageOp) (s : Storage)
    (h : Storage.runOps {} ops = some s) :
    ((JournalStorage.runOps {} ops).get_all_trials).2 =
      some (s.trials.map journalView) ∧
    (∀ tid, ((JournalStorage.runOps {} ops).get_trial tid).2 =
      (s.get_trial tid).map journalView) ∧
    (∀ t : FrozenTrial, (journalView t).trial_id = t.trial_id ∧
      (journalView t).state = t.state ∧ (journalView t).value = t.value ∧
      (journalView t).intermediate_values = t.intermediate_values ∧
      (journalView t).internal_params = t.internal_params ∧
      (journalView t).distributions =
        t.distributions.map (fun p => (p.1, storedToJournal p.2))) := by
  have hR := runOps_rel ops {} {} journalRel_init s h
  obtain ⟨hpt', hpo', hpw'⟩ := journalRel_pending s _ hR
  refine ⟨?_, fun tid => ?_, fun t => ⟨rfl, rfl, rfl, rfl, rfl, rfl⟩⟩
  · show (if (replayJournal (JournalStorage.runOps {} ops).trials
        (JournalStorage.runOps {} ops).last_created_trial_id
        ((JournalStorage.runOps {} ops).logs.drop
          (JournalStorage.runOps {} ops).next_op_id)).ok = true
      then some (replayJournal (JournalStorage.runOps {} ops).trials
        (JournalStorage.runOps {} ops).last_created_trial_id
        ((JournalStorage.runOps {} ops).logs.drop
          (JournalStorage.runOps {} ops).next_op_id)).trials
      else Option.none) = some (s.trials.map journalView)
    rw [if_pos hpo', hpt']
  · show (if (replayJournal (JournalStorage.runOps {} ops).trials
        (JournalStorage.runOps {} ops).last_created_trial_id
        ((JournalStorage.runOps {} ops).logs.drop
          (JournalStorage.runOps {} ops).next_op_id)).ok = true
      then (replayJournal (JournalStorage.runOps {} ops).trials
        (JournalStorage.runOps {} ops).last_created_trial_id
        ((JournalStorage.runOps {} ops).logs.drop
          (JournalStorage.runOps {} ops).next_op_id)).trials.get? tid
      else Option.none) = (s.get_trial tid).map journalView
    rw [if_pos hpo', hpt']
    exact List.get?_map journalView s.trials tid

/-- The two-operation sequence refuting the distributions part of claim C1: create
a trial, then set a float parameter on it. -/
def c1Ops : List StorageOp :=
  [.create, .setParam 0 "x" (.floatD { low := .val 0, high := .val 1, log := false })
    (.val 1)]

/-- Claim C1 counterexample: after `create; set_trial_param`, Storage's snapshot of
trial 0 stores the FloatDistribution object under "x", while JournalStorage's
replayed snapshot stores the string `str(distribution)` that was put into the
journal payload — so the `get_trial` snapshots are NOT equal. -/
theorem c1_counterexample :
    ((Storage.runOps {} c1Ops).bind (fun s => s.get_trial 0)).map
        (fun t => t.distributions) =
      some [("x", StoredDistribution.obj
        (.floatD { low := .val 0, high := .val 1, log := false }))] ∧
    (((JournalStorage.runOps {} c1Ops).get_trial 0).2).map (fun t => t.distributions) =
      some [("x", StoredDistribution.str "<FloatDistribution object>")] ∧
    ((JournalStorage.runOps {} c1Ops).get_trial 0).2 ≠
      (Storage.runOps {} c1Ops).bind (fun s => s.get_trial 0) := by
  refine ⟨?_, ?_, ?_⟩
  · with_unfolding_all rfl
  · with_unfolding_all rfl
  · with_unfolding_all decide

/-- Concrete operation sequence for the C1 witness. -/
def c1WOps : List StorageOp :=
  [.create, .setValue 0 (.val 1), .setState 0 .completed, .create]

/-- The Storage state after `c1WOps`. -/
def c1WStorage : Storage :=
  { trials := [
      { trial_id := 0
        state := .completed
        value := some (.val 1) },
      { trial_id := 1
        state := .running }] }

/-- Witness for the amended C1 at the concrete sequence `c1WOps`. -/
theorem c1_amended_witness :
    Storage.runOps {} c1WOps = some c1WStorage ∧
    (((JournalStorage.runOps {} c1WOps).get_all_trials).2 =
        some (c1WStorage.trials.map journalView) ∧
      (∀ tid, ((JournalStorage.runOps {} c1WOps).get_trial tid).2 =
        (c1WStorage.get_trial tid).map journalView) ∧
      (∀ t : FrozenTrial, (journalView t).trial_id = t.trial_id ∧
        (journalView t).state = t.state ∧ (journalView t).value = t.value ∧
        (journalView t).intermediate_values = t.intermediate_values ∧
        (journalView t).internal_params = t.internal_params ∧
        (journalView t).distributions =
          t.distributions.map (fun p => (p.1, storedToJournal p.2)))) :=
  ⟨by with_unfolding_all rfl,
    c1_amended c1WOps c1WStorage (by with_unfolding_all rfl)⟩

/-! ### Claim C4: the optimize loop -/

/-- One action the objective callback can take through its `Trial` handle:
`suggest_*` (which persists the distribution and the sampled value in internal
representation via `set_trial_param`) or `report` (which persists an intermediate
value via `set_trial_intermediate_value`). Neither touches the trial's state. -/
inductive TrialAction where
  | suggestParam (name : String) (distribution : BaseDistribution)
      (internal_value : PFloat)
  | report (step : ℤ) (value : PFloat)
deriving DecidableEq, Repr

/-- How one objective invocation ends: a normal return with a value, the raise of
the pruning signal `TrialPruned`, or any other raised error. -/
inductive ObjectiveOutcome where
  | success (value : PFloat)
  | prunedSignal
  | failure
deriving DecidableEq, Repr

/-- The objective callback, modelled by what it does through the Trial API: given
the storage at invocation time, a sequence of Trial actions and a final outcome. -/
def Objective : Type := Storage → List TrialAction × ObjectiveOutcome

/-- The storage effect of one Trial-API action on the trial bound to `trial_id`. -/
def applyTrialAction (s : Storage) (trial_id : ℕ) : TrialAction → Option Storage
  | .suggestParam name d v => s.set_trial_param trial_id name d v
  | .report step v => s.set_trial_intermediate_value trial_id step v

/-- Run the callback's actions in order (a raised error aborts, as in Python). -/
def runActions (s : Storage) (trial_id : ℕ) : List TrialAction → Option Storage
  | [] => some s
  | a :: rest =>
    match applyTrialAction s trial_id a with
    | Option.none => Option.none
    | some s' => runActions s' trial_id rest

/-- One iteration of `Study.optimize`'s loop: create a trial, run the objective,
then dispatch on its outcome — normal return: `set_trial_value` then state
Completed; `TrialPruned`: read the trial back, take `intermediate_values[last_step]`
(the `assert last_step is not None` fails fatally when no report was made), set that
value and state Pruned; any other error: state Failed, no value. -/
def runOneTrial (objective : Objective) (s : Storage) : Option Storage :=
  let p := s.create_new_trial
  let s₁ := p.1
  let trial_id := p.2
  let ao := objective s₁
  match runActions s₁ trial_id ao.1 with
  | Option.none => Option.none
  | some s₂ =>
    match ao.2 with
    | .success value =>
      (s₂.set_trial_value trial_id value).bind
        (fun s₃ => s₃.set_trial_state trial_id .completed)
    | .prunedSignal =>
      match s₂.get_trial trial_id with
      | Option.none => Option.none
      | some frozen_trial =>
        match frozen_trial.last_step with
        | Option.none => Option.none
        | some last_step =>
          match dictGet? frozen_trial.intermediate_values last_step with
          | Option.none => Option.none
          | some value =>
            (s₂.set_trial_value trial_id value).bind
              (fun s₃ => s₃.set_trial_state trial_id .pruned)
    | .failure => s₂.set_trial_state trial_id .failed

/-- `Study.optimize(objective, n_trials)`: run `n_trials` iterations. -/
def optimize (objective : Objective) : ℕ → Storage → Option Storage
  | 0, s => some s
  | n + 1, s => (runOneTrial objective s).bind (optimize objective n)

theorem dictSet_ne_nil {κ ν : Type} [DecidableEq κ] (d : List (κ × ν)) (k : κ)
    (v : ν) : dictSet d k v ≠ [] := by
  cases d with
  | nil => simp [dictSet]
  | cons p rest =>
    obtain ⟨k', v'⟩ := p
    by_cases hk : k' = k <;> simp [dictSet, hk]

theorem dictGet?_isSome_of_mem_keys {κ ν : Type} [DecidableEq κ] (d : List (κ × ν))
    (k : κ) (h : k ∈ d.map Prod.fst) : (dictGet? d k).isSome := by
  induction d with
  | nil => simp at h
  | cons p rest ih =>
    obtain ⟨k', v'⟩ := p
    by_cases hk : k' = k
    · simp [dictGet?, hk]
    · simp only [List.map_cons] at h
      rcases List.mem_cons.mp h with h' | h'
      · exact absurd h'.symm hk
      · simp only [dictGet?, if_neg hk]
        exact ih h'

theorem last_step_of_ne_nil (t : FrozenTrial) (h : t.intermediate_values ≠ []) :
    ∃ ls, t.last_step = some ls ∧ (dictGet? t.intermediate_values ls).isSome := by
  unfold FrozenTrial.last_step
  cases hmax : (t.intermediate_values.map Prod.fst).max? with
  | none =>
    exact absurd (List.map_eq_nil.mp (List.max?_eq_none_iff.mp hmax)) h
  | some m =>
    exact ⟨m, rfl,
      dictGet?_isSome_of_mem_keys _ _ (List.max?_mem (fun _ _ => max_choice _ _) hmax)⟩

theorem is_finished_false_of_running (t : FrozenTrial) (h : t.state = .running) :
    ¬ (t.is_finished = true) := by
  simp [FrozenTrial.is_finished, h]

theorem set_trial_value_run (s : Storage) (tid : ℕ) (t : FrozenTrial) (v : PFloat)
    (hget : s.trials.get? tid = some t) (hrun : t.state = .running) :
    s.set_trial_value tid v =
      some { trials := s.trials.set tid { t with value := some v } } := by
  unfold Storage.set_trial_value
  simp only [hget]
  rw [if_neg (is_finished_false_of_running t hrun)]

theorem set_trial_state_run (s : Storage) (tid : ℕ) (t : FrozenTrial)
    (st : TrialStateType) (hget : s.trials.get? tid = some t)
    (hrun : t.state = .running) :
    s.set_trial_state tid st =
      some { trials := s.trials.set tid { t with state := st } } := by
  unfold Storage.set_trial_state
  simp only [hget]
  rw [if_neg (is_finished_false_of_running t hrun)]

theorem set_trial_param_run (s : Storage) (tid : ℕ) (t : FrozenTrial) (name : String)
    (d : BaseDistribution) (v : PFloat) (hget : s.trials.get? tid = some t)
    (hrun : t.state = .running) :
    s.set_trial_param tid name d v =
      some { trials := s.trials.set tid
              { t with
                distributions := dictSet t.distributions name (.obj d)
                internal_params := dictSet t.internal_params name v } } := by
  unfold Storage.set_trial_param
  simp only [hget]
  rw [if_neg (is_finished_false_of_running t hrun)]

theorem set_trial_intermediate_run (s : Storage) (tid : ℕ) (t : FrozenTrial)
    (step : ℤ) (v : PFloat) (hget : s.trials.get? tid = some t)
    (hrun : t.state = .running) :
    s.set_trial_intermediate_value tid step v =
      some { trials := s.trials.set tid
              { t with intermediate_values :=
                  dictSet t.intermediate_values step v } } := by
  unfold Storage.set_trial_intermediate_value
  simp only [hget]
  rw [if_neg (is_finished_false_of_running t hrun)]

/-- The trial update performed by `set_trial_param`. -/
def paramUpdated (t : FrozenTrial) (name : String) (d : BaseDistribution)
    (v : PFloat) : FrozenTrial :=
  { t with
    distributions := dictSet t.distributions name (.obj d)
    internal_params := dictSet t.internal_params name v }

/-- The trial update performed by `set_trial_intermediate_value`. -/
def ivUpdated (t : FrozenTrial) (step : ℤ) (v : PFloat) : FrozenTrial :=
  { t with intermediate_values := dictSet t.intermediate_values step v }

theorem runActions_spec (acts : List TrialAction) (s : Storage) (tid : ℕ)
    (t : FrozenTrial) (hget : s.trials.get? tid = some t) (hrun : t.state = .running) :
    ∃ (s₂ : Storage) (t₂ : FrozenTrial),
      runActions s tid acts = some s₂ ∧
      s₂.trials.length = s.trials.length ∧
      (∀ i, i ≠ tid → s₂.trials.get? i = s.trials.get? i) ∧
      s₂.trials.get? tid = some t₂ ∧
      t₂.state = .running ∧
      t₂.trial_id = t.trial_id ∧
      t₂.value = t.value ∧
      (t.intermediate_values ≠ [] → t₂.intermediate_values ≠ []) ∧
      ((∃ step v, TrialAction.report step v ∈ acts) → t₂.intermediate_values ≠ []) := by
  induction acts generalizing s t with
  | nil =>
    refine ⟨s, t, rfl, rfl, fun _ _ => rfl, hget, hrun, rfl, rfl, fun h => h, ?_⟩
    rintro ⟨step, v, hmem⟩
    exact absurd hmem (List.not_mem_nil _)
  | cons a rest ih =>
    have htid : tid < s.trials.length := by
      by_contra hlt
      rw [List.get?_eq_none.mpr (by omega)] at hget
      exact Option.noConfusion hget
    cases a with
    | suggestParam name d v =>
      have happ := set_trial_param_run s tid t name d v hget hrun
      have hget₁ : ({ trials := s.trials.set tid (paramUpdated t name d v) } :
          Storage).trials.get? tid = some (paramUpdated t name d v) :=
        List.get?_set_eq_of_lt _ htid
      obtain ⟨s₂, t₂, h1, h2, h3, h4, h5, h6, h7, h8, h9⟩ :=
        ih { trials := s.trials.set tid (paramUpdated t name d v) }
          (paramUpdated t name d v) hget₁ hrun
      refine ⟨s₂, t₂, ?_, ?_, ?_, h4, h5, h6, h7, fun h => h8 h, ?_⟩
      · show runActions s tid (TrialAction.suggestParam name d v :: rest) = some s₂
        simp only [runActions, applyTrialAction]
        rw [happ]
        exact h1
      · rw [h2]
        exact List.length_set ..
      · intro i hi
        rw [h3 i hi]
        exact List.get?_set_ne _ _ (fun he => hi he.symm)
      · rintro ⟨step, v', hmem⟩
        rcases List.mem_cons.mp hmem with hmem' | hmem'
        · exact TrialAction.noConfusion hmem'
        · exact h9 ⟨step, v', hmem'⟩
    | report step v =>
      have happ := set_trial_intermediate_run s tid t step v hget hrun
      have hget₁ : ({ trials := s.trials.set tid (ivUpdated t step v) } :
          Storage).trials.get? tid = some (ivUpdated t step v) :=
        List.get?_set_eq_of_lt _ htid
      obtain ⟨s₂, t₂, h1, h2, h3, h4, h5, h6, h7, h8, h9⟩ :=
        ih { trials := s.trials.set tid (ivUpdated t step v) }
          (ivUpdated t step v) hget₁ hrun
      refine ⟨s₂, t₂, ?_, ?_, ?_, h4, h5, h6, h7,
        fun _ => h8 (dictSet_ne_nil _ _ _), fun _ => h8 (dictSet_ne_nil _ _ _)⟩
      · show runActions s tid (TrialAction.report step v :: rest) = some s₂
        simp only [runActions, applyTrialAction]
        rw [happ]
        exact h1
      · rw [h2]
        exact List.length_set ..
      · intro i hi
        rw [h3 i hi]
        exact List.get?_set_ne _ _ (fun he => hi he.symm)

/-- The trial update performed by `set_trial_value`. -/
def valUpdated (t : FrozenTrial) (v : PFloat) : FrozenTrial := { t with value := some v }

/-- The trial update performed by `set_trial_state`. -/
def stateUpdated (t : FrozenTrial) (st : TrialStateType) : FrozenTrial :=
  { t with state := st }

/-- The fresh Running trial appended by `create_new_trial`. -/
def newTrial (n : ℕ) : FrozenTrial := { trial_id := n, state := .running }

theorem runOneTrial_spec (objective : Objective)
    (hrep : ∀ st : Storage, (objective st).2 = ObjectiveOutcome.prunedSignal →
      ∃ step v, TrialAction.report step v ∈ (objective st).1)
    (s : Storage) :
    ∃ (s' : Storage) (t : FrozenTrial),
      runOneTrial objective s = some s' ∧
      s'.trials.length = s.trials.length + 1 ∧
      (∀ i, i < s.trials.length → s'.trials.get? i = s.trials.get? i) ∧
      s'.trials.get? s.trials.length = some t ∧
      t.is_finished = true ∧
      (match (objective (s.create_new_trial).1).2 with
        | .success v => t.state = .completed ∧ t.value = some v
        | .prunedSignal => t.state = .pruned ∧
            ∃ ls, t.last_step = some ls ∧ t.value = dictGet? t.intermediate_values ls
        | .failure => t.state = .failed ∧ t.value = Option.none) := by
  have hget₁ : ((s.create_new_trial).1).trials.get? s.trials.length =
      some (newTrial s.trials.length) := by
    rw [List.get?_eq_getElem?]
    exact List.getElem?_concat_length _ _
  obtain ⟨s₂, t₂, h1, h2, h3, h4, h5, h6, h7, h8, h9⟩ :=
    runActions_spec ((objective (s.create_new_trial).1).1) ((s.create_new_trial).1)
      s.trials.length (newTrial s.trials.length) hget₁ rfl
  have hlen₁ : ((s.create_new_trial).1).trials.length = s.trials.length + 1 := by
    show (s.trials ++ [newTrial s.trials.length]).length = s.trials.length + 1
    rw [List.length_append]
    rfl
  have htid₂ : s.trials.length < s₂.trials.length := by
    rw [h2, hlen₁]
    omega
  have hframe₁ : ∀ i, i < s.trials.length →
      s₂.trials.get? i = s.trials.get? i := by
    intro i hi
    rw [h3 i (by omega)]
    show (s.trials ++ [newTrial s.trials.length]).get? i = s.trials.get? i
    exact List.get?_append hi
  cases heo : (objective (s.create_new_trial).1).2 with
  | success v =>
    have happv := set_trial_value_run s₂ s.trials.length t₂ v h4 h5
    have hget₃ : (Storage.mk (s₂.trials.set s.trials.length
        (valUpdated t₂ v))).trials.get? s.trials.length = some (valUpdated t₂ v) :=
      List.get?_set_eq_of_lt _ htid₂
    have happs := set_trial_state_run _ s.trials.length (valUpdated t₂ v)
      .completed hget₃ h5
    refine ⟨Storage.mk ((s₂.trials.set s.trials.length (valUpdated t₂ v)).set
        s.trials.length (stateUpdated (valUpdated t₂ v) .completed)),
      stateUpdated (valUpdated t₂ v) .completed, ?_, ?_, ?_, ?_, rfl, ?_⟩
    · have hstepA : runOneTrial objective s =
          (s₂.set_trial_value s.trials.length v).bind
            (fun s₃ => s₃.set_trial_state s.trials.length TrialStateType.completed) := by
        simp only [runOneTrial]
        rw [show (s.create_new_trial).2 = s.trials.length from rfl, h1, heo]
      show runOneTrial objective s = _
      rw [hstepA, happv]
      simp only [Option.some_bind]
      exact happs
    · show ((s₂.trials.set s.trials.length (valUpdated t₂ v)).set
        s.trials.length (stateUpdated (valUpdated t₂ v) .completed)).length =
        s.trials.length + 1
      rw [List.length_set, List.length_set]
      exact h2.trans hlen₁
    · intro i hi
      show ((s₂.trials.set s.trials.length (valUpdated t₂ v)).set
        s.trials.length (stateUpdated (valUpdated t₂ v) .completed)).get? i =
        s.trials.get? i
      rw [List.get?_set_ne _ _ (by omega), List.get?_set_ne _ _ (by omega)]
      exact hframe₁ i hi
    · show ((s₂.trials.set s.trials.length (valUpdated t₂ v)).set
        s.trials.length (stateUpdated (valUpdated t₂ v) .completed)).get?
        s.trials.length = _
      rw [List.get?_set_eq_of_lt]
      rw [List.length_set]
      exact htid₂
    · exact ⟨rfl, rfl⟩
  | failure =>
    have happs := set_trial_state_run s₂ s.trials.length t₂ .failed h4 h5
    refine ⟨Storage.mk (s₂.trials.set s.trials.length (stateUpdated t₂ .failed)),
      stateUpdated t₂ .failed, ?_, ?_, ?_, ?_, rfl, ?_⟩
    · have hstepA : runOneTrial objective s =
          s₂.set_trial_state s.trials.length TrialStateType.failed := by
        simp only [runOneTrial]
        rw [show (s.create_new_trial).2 = s.trials.length from rfl, h1, heo]
      show runOneTrial objective s = _
      rw [hstepA, happs]
      rfl
    · show (s₂.trials.set s.trials.length (stateUpdated t₂ .failed)).length = _
      rw [List.length_set]
      exact h2.trans hlen₁
    · intro i hi
      show (s₂.trials.set s.trials.length (stateUpdated t₂ .failed)).get? i = _
      rw [List.get?_set_ne _ _ (by omega)]
      exact hframe₁ i hi
    · show (s₂.trials.set s.trials.length (stateUpdated t₂ .failed)).get?
        s.trials.length = _
      exact List.get?_set_eq_of_lt _ htid₂
    · exact ⟨rfl, h7⟩
  | prunedSignal =>
    obtain ⟨rstep, rv, hmem⟩ := hrep (s.create_new_trial).1 heo
    have hne : t₂.intermediate_values ≠ [] := h9 ⟨rstep, rv, hmem⟩
    obtain ⟨ls, hls, hsome⟩ := last_step_of_ne_nil t₂ hne
    obtain ⟨v₀, hv₀⟩ := Option.isSome_iff_exists.mp hsome
    have happv := set_trial_value_run s₂ s.trials.length t₂ v₀ h4 h5
    have hget₃ : (Storage.mk (s₂.trials.set s.trials.length
        (valUpdated t₂ v₀))).trials.get? s.trials.length = some (valUpdated t₂ v₀) :=
      List.get?_set_eq_of_lt _ htid₂
    have happs := set_trial_state_run _ s.trials.length (valUpdated t₂ v₀)
      .pruned hget₃ h5
    refine ⟨Storage.mk ((s₂.trials.set s.trials.length (valUpdated t₂ v₀)).set
        s.trials.length (stateUpdated (valUpdated t₂ v₀) .pruned)),
      stateUpdated (valUpdated t₂ v₀) .pruned, ?_, ?_, ?_, ?_, rfl, ?_⟩
    · have hstepA : runOneTrial objective s =
          (match Storage.get_trial s₂ s.trials.length with
          | Option.none => Option.none
          | some frozen_trial =>
            match frozen_trial.last_step with
            | Option.none => Option.none
            | some last_step =>
              match dictGet? frozen_trial.intermediate_values last_step with
              | Option.none => Option.none
              | some value =>
                (s₂.set_trial_value s.trials.length value).bind
                  (fun s₃ => s₃.set_trial_state s.trials.length .pruned)) := by
        simp only [runOneTrial]
        rw [show (s.create_new_trial).2 = s.trials.length from rfl, h1, heo]
      have hstepA2 : runOneTrial objective s =
          (match t₂.last_step with
          | Option.none => Option.none
          | some last_step =>
            match dictGet? t₂.intermediate_values last_step with
            | Option.none => Option.none
            | some value =>
              (s₂.set_trial_value s.trials.length value).bind
                (fun s₃ => s₃.set_trial_state s.trials.length .pruned)) := by
        rw [hstepA, show Storage.get_trial s₂ s.trials.length = some t₂ from h4]
      have hstepB : runOneTrial objective s =
          (match dictGet? t₂.intermediate_values ls with
          | Option.none => Option.none
          | some value =>
            (s₂.set_trial_value s.trials.length value).bind
              (fun s₃ => s₃.set_trial_state s.trials.length .pruned)) := by
        rw [hstepA2, hls]
      have hstepC : runOneTrial objective s =
          (s₂.set_trial_value s.trials.length v₀).bind
            (fun s₃ => s₃.set_trial_state s.trials.length TrialStateType.pruned) := by
        rw [hstepB, hv₀]
      show runOneTrial objective s = _
      rw [hstepC, happv]
      simp only [Option.some_bind]
      exact happs
    · show ((s₂.trials.set s.trials.length (valUpdated t₂ v₀)).set
        s.trials.length (stateUpdated (valUpdated t₂ v₀) .pruned)).length =
        s.trials.length + 1
      rw [List.length_set, List.length_set]
      exact h2.trans hlen₁
    · intro i hi
      show ((s₂.trials.set s.trials.length (valUpdated t₂ v₀)).set
        s.trials.length (stateUpdated (valUpdated t₂ v₀) .pruned)).get? i =
        s.trials.get? i
      rw [List.get?_set_ne _ _ (by omega), List.get?_set_ne _ _ (by omega)]
      exact hframe₁ i hi
    · show ((s₂.trials.set s.trials.length (valUpdated t₂ v₀)).set
        s.trials.length (stateUpdated (valUpdated t₂ v₀) .pruned)).get?
        s.trials.length = _
      rw [List.get?_set_eq_of_lt]
      rw [List.length_set]
      exact htid₂
    · exact ⟨rfl, ls, hls, hv₀.symm⟩

theorem optimize_spec (objective : Objective)
    (hrep : ∀ st : Storage, (objective st).2 = ObjectiveOutcome.prunedSignal →
      ∃ step v, TrialAction.report step v ∈ (objective st).1)
    (n : ℕ) (s₀ : Storage) :
    ∃ s' : Storage, optimize objective n s₀ = some s' ∧
      s'.trials.length = s₀.trials.length + n ∧
      (∀ i, i < s₀.trials.length → s'.trials.get? i = s₀.trials.get? i) ∧
      (∀ i t, s₀.trials.length ≤ i → s'.trials.get? i = some t →
        t.is_finished = true) := by
  induction n generalizing s₀ with
  | zero =>
    refine ⟨s₀, rfl, by omega, fun i _ => rfl, fun i t hle hget => ?_⟩
    obtain ⟨hlt, _⟩ := List.get?_eq_some.mp hget
    omega
  | succ n ih =>
    obtain ⟨s₁, t₁, h1, h2, h3, h4, h5, h6⟩ := runOneTrial_spec objective hrep s₀
    obtain ⟨s', hs1, hs2, hs3, hs4⟩ := ih s₁
    refine ⟨s', ?_, ?_, ?_, ?_⟩
    · show (runOneTrial objective s₀).bind (optimize objective n) = some s'
      rw [h1, Option.some_bind, hs1]
    · rw [hs2, h2]
      omega
    · intro i hi
      rw [hs3 i (by omega), h3 i hi]
    · intro i t hle hget
      by_cases hcase : i < s₁.trials.length
      · have hieq : i = s₀.trials.length := by omega
        subst hieq
        rw [hs3 _ hcase, h4] at hget
        injection hget with he
        rw [← he]
        exact h5
      · exact hs4 i t (by omega) hget

/-- Claim C4: for every objective callback (modelled by its Trial-API actions and
final outcome) with the spec's precondition that the pruning signal is only raised
after at least one report, `optimize(objective, n_trials)` creates exactly
`n_trials` new trials and drives each to a terminal state without ever aborting the
loop; and each iteration ends with: a normal return — state Completed with the
returned value; the pruning signal — state Pruned with value equal to the trial's
`intermediate_values[last_step]`; any other raised error — state Failed and no
value recorded, never propagating out of `optimize`. -/
theorem c4_optimize (objective : Objective)
    (hrep : ∀ st : Storage, (objective st).2 = ObjectiveOutcome.prunedSignal →
      ∃ step v, TrialAction.report step v ∈ (objective st).1) :
    (∀ (n : ℕ) (s₀ : Storage), ∃ s' : Storage,
      optimize objective n s₀ = some s' ∧
      s'.trials.length = s₀.trials.length + n ∧
      (∀ i t, s₀.trials.length ≤ i → s'.trials.get? i = some t →
        t.is_finished = true)) ∧
    (∀ s : Storage, ∃ (s' : Storage) (t : FrozenTrial),
      runOneTrial objective s = some s' ∧
      s'.trials.length = s.trials.length + 1 ∧
      s'.trials.get? s.trials.length = some t ∧
      (match (objective (s.create_new_trial).1).2 with
        | .success v => t.state = .completed ∧ t.value = some v
        | .prunedSignal => t.state = .pruned ∧
            ∃ ls, t.last_step = some ls ∧ t.value = dictGet? t.intermediate_values ls
        | .failure => t.state = .failed ∧ t.value = Option.none)) := by
  constructor
  · intro n s₀
    obtain ⟨s', h1, h2, _, h4⟩ := optimize_spec objective hrep n s₀
    exact ⟨s', h1, h2, h4⟩
  · intro s
    obtain ⟨s', t, h1, h2, _, h4, _, h6⟩ := runOneTrial_spec objective hrep s
    exact ⟨s', t, h1, h2, h4, h6⟩

/-- A concrete objective for the C4 witness: one report at step 0 with value 7,
then the pruning signal — every trial ends Pruned with value 7. -/
def c4Obj : Objective := fun _ => ([TrialAction.report 0 (.val 7)], .prunedSignal)

/-- Witness for C4: the concrete objective `c4Obj` satisfies the
report-before-prune precondition, and optimizing two trials from the fresh storage
yields two terminal trials. -/
theorem c4_optimize_witness :
    (∀ st : Storage, (c4Obj st).2 = ObjectiveOutcome.prunedSignal →
      ∃ step v, TrialAction.report step v ∈ (c4Obj st).1) ∧
    (∃ s' : Storage, optimize c4Obj 2 {} = some s' ∧
      s'.trials.length = ({} : Storage).trials.length + 2 ∧
      (∀ i t, ({} : Storage).trials.length ≤ i → s'.trials.get? i = some t →
        t.is_finished = true)) := by
  have hrep : ∀ st : Storage, (c4Obj st).2 = ObjectiveOutcome.prunedSignal →
      ∃ step v, TrialAction.report step v ∈ (c4Obj st).1 :=
    fun st _ => ⟨0, .val 7, List.mem_cons_self _ _⟩
  exact ⟨hrep, (c4_optimize c4Obj hrep).1 2 {}⟩
